import Mathlib

/-!
Verification of the gameplay core of the Math Blaster 3D arcade shooter
(two build variants: a basic one and an enhanced one with health pickups,
pause and ad gating).  The JavaScript source is shallowly embedded below:
pure game-state transitions become Lean functions on explicit state
records, JS numbers become rationals / integers, and the only abstracted
ingredients are the 3D trigonometry inputs (ray intersections, normalized
direction vectors, spawn angles), which are passed in as explicit
parameters, and the DOM / audio / rendering side effects, which carry no
gameplay state.
-/

namespace MathBlaster

/-- Answer values bound to hitbox zones: JS numbers in math mode,
JS strings in quiz / english mode. -/
inductive Answer where
  | num (n : ℤ)
  | str (s : String)
deriving DecidableEq, Repr

/-- Whether an answer value is a (strictly) positive number; string answers
are not positive numbers. -/
def Answer.isPosNum : Answer → Bool
  | .num n => decide (0 < n)
  | .str _ => false

/-- Question-generation mode, from gameState.mode. -/
inductive Mode where
  | math
  | quiz
  | english
deriving DecidableEq, Repr

/-- The global gameState object (enhanced build initial values:
health = maxHealth = 100; the basic build uses 150). -/
structure GState where
  score : ℕ
  wave : ℕ
  health : ℤ
  maxHealth : ℤ
  combo : ℕ
  kills : ℕ
  isRunning : Bool
  isPaused : Bool
  mode : Mode
deriving DecidableEq, Repr

/-- Clamp of one ground-plane coordinate into [-limit, limit], the pattern
Math.max(-boundaryLimit, Math.min(boundaryLimit, x)) from the source. -/
def clampB (limit x : ℚ) : ℚ := max (-limit) (min limit x)

/-- Clamp both ground-plane axes (x and z) into the square arena. -/
def clamp2 (limit : ℚ) (p : ℚ × ℚ) : ℚ × ℚ := (clampB limit p.1, clampB limit p.2)

/-- Arena clamp bound used for robots (constructor, update, respawn):
const boundaryLimit = 45. -/
def robotBoundaryLimit : ℚ := 45

/-- Arena clamp bound used for the player camera in updatePlayerMovement:
const boundaryLimit = 35. -/
def playerBoundaryLimit : ℚ := 35

/-- Membership of a ground-plane point in the square arena of a given
clamp bound. -/
def inBounds (limit : ℚ) (p : ℚ × ℚ) : Prop :=
  -limit ≤ p.1 ∧ p.1 ≤ limit ∧ -limit ≤ p.2 ∧ p.2 ≤ limit

instance (limit : ℚ) (p : ℚ × ℚ) : Decidable (inBounds limit p) := by
  unfold inBounds; infer_instance

/-- Wave-advance ad gate from adManager.js: shouldShowWaveAd(waveNumber)
returns waveNumber > 1 && waveNumber % 3 === 0 (AD_CONFIG.waveAdInterval = 3). -/
def shouldShowWaveAd (waveNumber : ℕ) : Bool :=
  decide (1 < waveNumber) && decide (waveNumber % 3 = 0)

/-- State effect of a correct hit in the enhanced build onShoot: score,
kills and combo update, then the every-5th-kill wave advance with the +20
heal capped at maxHealth, the spawn-interval shrink floored at 0.6 s, and
the interstitial wave-ad pause.  Returns the new gameState and the new
spawnInterval global. -/
def applyCorrectHit (g : GState) (spawnInterval : ℚ) : GState × ℚ :=
  let g := { g with
    score := g.score + 100 * g.combo,
    kills := g.kills + 1,
    combo := min (g.combo + 1) 10 }
  if g.kills % 5 = 0 then
    let g := { g with
      wave := g.wave + 1,
      health := min g.maxHealth (g.health + 20) }
    let si := max (3/5) (spawnInterval - 1/5)
    let g := if shouldShowWaveAd g.wave then { g with isPaused := true } else g
    (g, si)
  else
    (g, spawnInterval)

/-- State effect of a correct hit in the basic build onShoot: identical
score / kills / combo update, but the wave advance only increments the
wave and shrinks spawnInterval (floored at 0.8 s); there is no heal and
no ad gate. -/
def applyCorrectHitBasic (g : GState) (spawnInterval : ℚ) : GState × ℚ :=
  let g := { g with
    score := g.score + 100 * g.combo,
    kills := g.kills + 1,
    combo := min (g.combo + 1) 10 }
  if g.kills % 5 = 0 then
    ({ g with wave := g.wave + 1 }, max (4/5) (spawnInterval - 1/5))
  else
    (g, spawnInterval)

/-- State effect of a wrong hit in onShoot (both builds): the combo is
reset to 1 and nothing else in the game state changes. -/
def applyWrongHit (g : GState) : GState := { g with combo := 1 }

/-- Robot variety tags: normal, fast, heavy. -/
inductive RType where
  | normal
  | fast
  | heavy
deriving DecidableEq, Repr

/-- Damage per type from the Robot constructor switch
(fast 10, heavy 25, normal 12). -/
def RType.damage : RType → ℤ
  | .fast => 10
  | .heavy => 25
  | .normal => 12

/-- Base speed per type from the Robot constructor switch. -/
def RType.baseSpeed : RType → ℚ
  | .fast => 3
  | .heavy => 1
  | .normal => 9/5

/-- Scale per type from the Robot constructor switch. -/
def RType.scale : RType → ℚ
  | .fast => 17/20
  | .heavy => 13/10
  | .normal => 1

/-- The three anatomical hitbox zones. -/
inductive Zone where
  | head
  | chest
  | knee
deriving DecidableEq, Repr

/-- Answer values bound to the three zones (this.answers). -/
structure ZoneAnswers where
  head : Answer
  chest : Answer
  knee : Answer
deriving DecidableEq, Repr

/-- Lookup of the answer bound to a zone (this.answers[part]). -/
def ZoneAnswers.get (za : ZoneAnswers) : Zone → Answer
  | .head => za.head
  | .chest => za.chest
  | .knee => za.knee

/-- Gameplay-relevant state of one Robot entity.  The ground-plane
position (x, z) is modelled; the y coordinate (walk bob via sin) and the
walk-cycle phase only drive leg / bob animation and are presentation.
The question, correctAnswer and answers fields are assigned once by
generateQuestion in the constructor. -/
structure Robot where
  rtype : RType
  pos : ℚ × ℚ
  speed : ℚ
  alive : Bool
  dying : Bool
  dyingTimer : ℚ
  attackCooldown : ℚ
  question : String
  correctAnswer : Answer
  answers : ZoneAnswers
deriving DecidableEq, Repr

/-- Default robot used only as the List.getD fallback in theorem
statements (never constructed by the embedded code). -/
def defRobot : Robot :=
  { rtype := .normal, pos := (0, 0), speed := 9/5, alive := true, dying := false,
    dyingTimer := 0, attackCooldown := 0, question := "",
    correctAnswer := .num 0, answers := ⟨.num 0, .num 0, .num 0⟩ }

/-- Geometry inputs of one Robot.update frame.  dt is the frame delta;
inRange abstracts the comparison distanceToPlayer < attackRange (4 for
heavy, 3 otherwise) computed from the pre-move position; moveVec abstracts
direction.normalize().multiplyScalar(this.speed * deltaTime); playerPos is
the camera ground-plane position and respawnOffset abstracts the
sin / cos spawn offset used by the respawn-after-attack. -/
structure RFrame where
  dt : ℚ
  inRange : Bool
  moveVec : ℚ × ℚ
  playerPos : ℚ × ℚ
  respawnOffset : ℚ × ℚ
deriving Repr

/-- Robot.attackPlayer: guarded by gameState.isRunning; sets the 1.5 s
cooldown, deducts type damage from health, triggers endGame (isRunning
false) when health drops to 0 or below, otherwise respawns the robot
around the player clamped into the arena.  The Bool reports whether
damage was applied. -/
def attackPlayer (r : Robot) (g : GState) (f : RFrame) : Robot × GState × Bool :=
  if g.isRunning = false then (r, g, false)
  else
    let r := { r with attackCooldown := 3/2 }
    let g := { g with health := g.health - r.rtype.damage }
    if g.health ≤ 0 then
      (r, { g with isRunning := false }, true)
    else
      ({ r with pos := clamp2 robotBoundaryLimit (f.playerPos + f.respawnOffset) },
       g, true)

/-- Robot.update for one frame.  In the dying state only the dying timer
advances (after 1 s the entity stops being alive and is purged by the
frame loop); otherwise the attack cooldown is decremented while positive,
the robot moves toward the player and is clamped into the arena, and it
attacks when in range with the cooldown expired. -/
def robotUpdate (r : Robot) (g : GState) (f : RFrame) : Robot × GState × Bool :=
  if r.dying then
    let r := { r with dyingTimer := r.dyingTimer + f.dt }
    let r := if 1 < r.dyingTimer then { r with alive := false } else r
    (r, g, false)
  else
    let cd := if 0 < r.attackCooldown then r.attackCooldown - f.dt else r.attackCooldown
    let r := { r with
      attackCooldown := cd,
      pos := clamp2 robotBoundaryLimit (r.pos + f.moveVec) }
    if f.inRange = true ∧ r.attackCooldown ≤ 0 then attackPlayer r g f
    else (r, g, false)

/-- Health pickup entity (enhanced build).  The stored position is the
mesh position for the frame (its sin-based bob animation is folded into
the stored coordinates); collected marks it for the same-frame purge. -/
structure Pickup where
  pos : ℚ × ℚ × ℚ
  collected : Bool
deriving DecidableEq, Repr

/-- Result of one onShoot fire event. -/
structure ShotOut where
  gs : GState
  spawnInterval : ℚ
  robots : List Robot
  drops : List Pickup
deriving Repr

/-- Core loop of the enhanced onShoot over the active robot list, in spawn
order.  Each robot is paired with the zone its hitboxes return for the
view-center ray (none when the ray misses it); dying robots are skipped
before the ray test.  The first non-dying robot with an intersection is
resolved — correct answers set it dying and apply applyCorrectHit, and a
pickup drops when the 0.3-probability draw succeeds — and iteration stops
there (the early return), so all later robots stay untouched.  dropRoll
abstracts the Math.random() < 0.3 pickup draw. -/
def resolveShot (g : GState) (si : ℚ) (dropRoll : Bool) :
    List (Robot × Option Zone) → ShotOut
  | [] => ⟨g, si, [], []⟩
  | (r, hit) :: rest =>
    if r.dying then
      let out := resolveShot g si dropRoll rest
      { out with robots := r :: out.robots }
    else
      match hit with
      | none =>
        let out := resolveShot g si dropRoll rest
        { out with robots := r :: out.robots }
      | some z =>
        if r.answers.get z = r.correctAnswer then
          let (g, si) := applyCorrectHit g si
          { gs := g, spawnInterval := si,
            robots := { r with dying := true } :: rest.map Prod.fst,
            drops := if dropRoll then [⟨(r.pos.1, 0, r.pos.2), false⟩] else [] }
        else
          { gs := applyWrongHit g, spawnInterval := si,
            robots := r :: rest.map Prod.fst, drops := [] }

/-- Enhanced onShoot entry: the whole handler is guarded by
gameState.isRunning && !gameState.isPaused. -/
def onShoot (g : GState) (si : ℚ) (dropRoll : Bool)
    (entries : List (Robot × Option Zone)) : ShotOut :=
  if g.isRunning && !g.isPaused then resolveShot g si dropRoll entries
  else ⟨g, si, entries.map Prod.fst, []⟩

/-- Index of the robot an onShoot fire event resolves: the first entry
that is not dying and whose hitboxes intersect the ray. -/
def firstTarget (entries : List (Robot × Option Zone)) : Option ℕ :=
  entries.findIdx? (fun e => !e.1.dying && e.2.isSome)

/-- Stream of Math.random() results, each meant to lie in [0, 1),
modelled as rationals. -/
abbrev RNG := List ℚ

/-- Pop one Math.random() draw (0 when the stream is exhausted; genuine
streams are infinite so theorems quantify over arbitrary streams). -/
def randFloat : RNG → ℚ × RNG
  | [] => (0, [])
  | r :: rest => (r, rest)

/-- The Math.floor(r * n) indexing pattern, as a natural number. -/
def floorIdx (r : ℚ) (n : ℕ) : ℕ := (⌊r * n⌋).toNat

/-- Every draw of the stream lies in the Math.random() range [0, 1). -/
def validRNG (rng : RNG) : Prop := ∀ r ∈ rng, 0 ≤ r ∧ r < 1

/-- Arithmetic operations of the math generator. -/
inductive Op where
  | add
  | sub
  | mul
  | div
  | sq
deriving DecidableEq, Repr

/-- Operation set unlocked at a wave (the cascade of wave-threshold ifs in
MathGenerator.generate; a later threshold overwrites the earlier list). -/
def opsForWave (wave : ℕ) : List Op :=
  if 10 ≤ wave then [.add, .sub, .mul, .div, .sq]
  else if 6 ≤ wave then [.add, .sub, .mul, .div]
  else if 3 ≤ wave then [.add, .sub, .mul]
  else if 2 ≤ wave then [.add, .sub]
  else [.add]

/-- Operand magnitude for a wave (the same cascade). -/
def maxNumForWave (wave : ℕ) : ℕ :=
  if 10 ≤ wave then 100
  else if 6 ≤ wave then 50
  else if 3 ≤ wave then 30
  else if 2 ≤ wave then 20
  else 10

/-- Operand and answer generation of the MathGenerator switch.  Returns
(a, b, answer) and the remaining stream. -/
def mathOperands (op : Op) (maxNum : ℕ) (rng : RNG) : (ℤ × ℤ × ℤ) × RNG :=
  match op with
  | .add =>
    let (r1, rng) := randFloat rng
    let (r2, rng) := randFloat rng
    let a : ℤ := ⌊r1 * maxNum⌋ + 1
    let b : ℤ := ⌊r2 * maxNum⌋ + 1
    ((a, b, a + b), rng)
  | .sub =>
    let (r1, rng) := randFloat rng
    let (r2, rng) := randFloat rng
    let a : ℤ := ⌊r1 * maxNum⌋ + 10
    let b : ℤ := ⌊r2 * a⌋
    ((a, b, a - b), rng)
  | .mul =>
    let multMax : ℕ := min 15 ((maxNum + 1) / 2)
    let (r1, rng) := randFloat rng
    let (r2, rng) := randFloat rng
    let a : ℤ := ⌊r1 * multMax⌋ + 2
    let b : ℤ := ⌊r2 * 10⌋ + 2
    ((a, b, a * b), rng)
  | .div =>
    let (r1, rng) := randFloat rng
    let (r2, rng) := randFloat rng
    let b : ℤ := ⌊r1 * 12⌋ + 2
    let ans : ℤ := ⌊r2 * 12⌋ + 2
    ((b * ans, b, ans), rng)
  | .sq =>
    let (r1, rng) := randFloat rng
    let a : ℤ := ⌊r1 * 15⌋ + 2
    ((a, 2, a * a), rng)

/-- One decoy candidate draw of MathGenerator.generate: a signed offset
in [-5, 4], with a zero offset replaced by a ±1 coin flip. -/
def decoyDraw (ans : ℤ) (rng : RNG) : ℤ × RNG :=
  let r1 := (randFloat rng).1
  let rng1 := (randFloat rng).2
  let offset : ℤ := ⌊r1 * 10⌋ - 5
  if offset = 0 then
    (ans + (if 1/2 < (randFloat rng1).1 then (1 : ℤ) else -1), (randFloat rng1).2)
  else (ans + offset, rng1)

/-- Decoy loop of MathGenerator.generate: keep a candidate only when it
differs from the answer, is strictly positive and is not already chosen;
repeat until two decoys are found.  The JS while loop has no bound, so the
embedding uses explicit fuel and returns none on exhaustion. -/
def genDecoys (fuel : ℕ) (ans : ℤ) (rng : RNG) (acc : List ℤ) :
    Option (List ℤ × RNG) :=
  if 2 ≤ acc.length then some (acc, rng)
  else
    match fuel with
    | 0 => none
    | fuel + 1 =>
      let wrong := (decoyDraw ans rng).1
      let rng2 := (decoyDraw ans rng).2
      if wrong ≠ ans ∧ 0 < wrong ∧ wrong ∉ acc then
        genDecoys fuel ans rng2 (acc ++ [wrong])
      else
        genDecoys fuel ans rng2 acc

/-- Display symbol of an operation in the question template. -/
def Op.sym : Op → String
  | .add => "+"
  | .sub => "-"
  | .mul => "×"
  | .div => "÷"
  | .sq => "²"

/-- MathGenerator.generate: pick an operation from the wave-unlocked set,
generate operands and the answer, then the two decoys (with fuel for the
unbounded JS loop), and format the question string. -/
def mathGenerate (wave : ℕ) (rng : RNG) (fuel : ℕ) :
    Option ((String × Answer × Answer × Answer) × RNG) :=
  let ops := opsForWave wave
  let maxNum := maxNumForWave wave
  let (r0, rng) := randFloat rng
  let op := ops.getD (floorIdx r0 ops.length) .add
  let ((a, b, ans), rng) := mathOperands op maxNum rng
  match genDecoys fuel ans rng [] with
  | none => none
  | some (ws, rng) =>
    match ws with
    | [w1, w2] =>
      let q := if op = .sq then s!"{a}² = ?" else s!"{a} {op.sym} {b} = ?"
      some ((q, .num ans, .num w1, .num w2), rng)
    | _ => none

/-- Question pools are lists of (question, answer, wrong1, wrong2). -/
abbrev QPool := List (String × String × String × String)

/-- Easy quiz pool (QuizGenerator constructor). -/
def quizEasy : QPool :=
  [("Capital of France?", "Paris", "London", "Berlin"),
   ("H2O is?", "Water", "Iron", "Gold"),
   ("Red Planet?", "Mars", "Venus", "Jupiter"),
   ("Largest Ocean?", "Pacific", "Atlantic", "Indian"),
   ("Fastest Animal?", "Cheetah", "Lion", "Horse"),
   ("Is the sun a star?", "Yes", "No", "Maybe"),
   ("King of Jungle?", "Lion", "Tiger", "Bear"),
   ("Color of Emerald?", "Green", "Red", "Blue"),
   ("Opposite of Cold?", "Hot", "Warm", "Cool"),
   ("Freezing point of water?", "0°C", "-10°C", "10°C"),
   ("Color of banana?", "Yellow", "Green", "Red"),
   ("Bat is a bird?", "No", "Yes", "Maybe"),
   ("A shape with 3 sides?", "Triangle", "Square", "Circle"),
   ("Ice is?", "Frozen Water", "Gas", "Steam"),
   ("Number of fingers?", "5", "4", "6")]

/-- Medium quiz pool, unlocked at wave 4. -/
def quizMedium : QPool :=
  [("Capital of Japan?", "Tokyo", "Kyoto", "Osaka"),
   ("Hardest material?", "Diamond", "Steel", "Iron"),
   ("3.14 is?", "Pi", "Phi", "E"),
   ("Smallest planet?", "Mercury", "Mars", "Pluto"),
   ("Number of continents?", "7", "5", "6"),
   ("Identify: Verb", "Run", "Blue", "Sky"),
   ("Capital of USA?", "Washington D.C.", "New York", "Chicago"),
   ("Currency of UK?", "Pound", "Euro", "Dollar"),
   ("Symbol for Gold?", "Au", "Ag", "Fe"),
   ("Programming language?", "JavaScript", "HTML", "CSS"),
   ("Planet with rings?", "Saturn", "Mars", "Venus"),
   ("Largest desert?", "Antarctica", "Sahara", "Gobi"),
   ("Closest star?", "Sun", "Proxima", "Sirius"),
   ("Spider legs count?", "8", "6", "10"),
   ("Capital of Spain?", "Madrid", "Barcelona", "Seville")]

/-- Hard quiz pool, unlocked at wave 8. -/
def quizHard : QPool :=
  [("CPU stands for?", "Central Processing Unit", "Computer Personal Unit", "Central Power Unit"),
   ("Boiling point of water?", "100°C", "90°C", "120°C"),
   ("Speed of light used in?", "Optics", "Acoustics", "Mechanics"),
   ("Who painted Mona Lisa?", "Da Vinci", "Picasso", "Van Gogh"),
   ("Force that pulls down?", "Gravity", "Magnetism", "Friction"),
   ("Largest mammal?", "Blue Whale", "Elephant", "Giraffe"),
   ("Square root of 64?", "8", "6", "12"),
   ("Author of Harry Potter?", "J.K. Rowling", "Tolkien", "Martin"),
   ("Which gas do we breath?", "Oxygen", "Helium", "Nitrogen"),
   ("Fastest bird?", "Peregrine Falcon", "Eagle", "Hawk"),
   ("Tallest mountain?", "Everest", "K2", "Kilimanjaro"),
   ("Capital of Italy?", "Rome", "Milan", "Venice"),
   ("Number of bones in ear?", "3", "2", "4"),
   ("Where are pyramids?", "Egypt", "Mexico", "Peru"),
   ("Symbol for Iron?", "Fe", "Ir", "In"),
   ("Primary colors?", "R, G, B", "O, P, G", "B, W, G"),
   ("Start of WWI?", "1914", "1918", "1939"),
   ("Inventor of Phone?", "Bell", "Edison", "Tesla"),
   ("Most spoken language?", "English", "Spanish", "Mandarin"),
   ("Frozen water is?", "Ice", "Steam", "Liquid"),
   ("Value of a dozen?", "12", "10", "6"),
   ("Humans breathe out?", "CO2", "Oxygen", "Nitrogen"),
   ("Capital of China?", "Beijing", "Shanghai", "Hong Kong")]

/-- Easy english pool (EnglishGenerator constructor). -/
def englishEasy : QPool :=
  [("Opposite of HOT?", "Cold", "Warm", "Soft"),
   ("Synonym of HAPPY?", "Joyful", "Sad", "Angry"),
   ("Past tense of RUN?", "Ran", "Runned", "Running"),
   ("Opposite of BIG?", "Small", "Huge", "Tall"),
   ("Synonym of FAST?", "Quick", "Slow", "Lazy"),
   ("Rhymes with CAT?", "Hat", "Dog", "Fish"),
   ("Which is a noun?", "Apple", "Eat", "Red"),
   ("Opposite of DAY?", "Night", "Sun", "Moon"),
   ("Homophone of SEA?", "See", "Say", "Saw"),
   ("Past tense of EAT?", "Ate", "Eated", "Eating"),
   ("Plural of MAN?", "Men", "Mans", "Mens"),
   ("Color of Sky?", "Blue", "Green", "Red"),
   ("Antonym of UP?", "Down", "Left", "Right")]

/-- Medium english pool, unlocked at wave 4. -/
def englishMedium : QPool :=
  [("Plural of CHILD?", "Children", "Childs", "Childrens"),
   ("Which is a verb?", "Jump", "Blue", "Table"),
   ("Plural of MOUSE?", "Mice", "Mouses", "Mees"),
   ("Which is an adjective?", "Fast", "Car", "Drive"),
   ("Opposite of TRUE?", "False", "Right", "Correct"),
   ("Antonym of RICH?", "Poor", "Wealthy", "Gold"),
   ("Past tense of GO?", "Went", "Goed", "Going"),
   ("Plural of TOOTH?", "Teeth", "Tooths", "Teethes"),
   ("Rhymes with MOON?", "Spoon", "Sun", "Star"),
   ("Which is a Pronoun?", "He", "Run", "Boy"),
   ("Past tense of SEE?", "Saw", "Seen", "Seed"),
   ("Plural of FOOT?", "Feet", "Foots", "Feets"),
   ("Homophone of TWO?", "Too", "To", "Tow")]

/-- Hard english pool, unlocked at wave 8. -/
def englishHard : QPool :=
  [("Synonym of SMART?", "Clever", "Dumb", "Slow"),
   ("Synonym of ANGRY?", "Mad", "Calm", "Happy"),
   ("Antonym of NEAR?", "Far", "Close", "Here"),
   ("Synonym of BEGIN?", "Start", "End", "Finish"),
   ("Antonym of HARD?", "Soft", "Easy", "Solid"),
   ("Past tense of DO?", "Did", "Done", "Doed"),
   ("Rhymes with SKY?", "Fly", "Blue", "Bird"),
   ("Which is an Adverb?", "Slowly", "Fast", "Run"),
   ("Synonym of BIG?", "Large", "Tiny", "Small"),
   ("Antonym of LOVE?", "Hate", "Like", "Friend"),
   ("Past tense of BUY?", "Bought", "Buyed", "Bring"),
   ("Plural of GOOSE?", "Geese", "Gooses", "Geeses"),
   ("Homophone of PAIR?", "Pear", "Pare", "Peel"),
   ("Synonym of SCARED?", "Afraid", "Brave", "Bold"),
   ("Past tense of COME?", "Came", "Comed", "Coming"),
   ("Plural of WOMAN?", "Women", "Womans", "Womens"),
   ("Rhymes with LIGHT?", "Bright", "Dark", "Sun"),
   ("Which is a Preposition?", "Under", "Cat", "Jump"),
   ("Synonym of TIRED?", "Sleepy", "Awake", "Walk"),
   ("Antonym of RIGHT?", "Wrong", "Left", "Correct")]

/-- Cumulative pool unlocked at a wave (wave ≥ 4 adds medium, wave ≥ 8
adds hard, earlier tiers are kept). -/
def cumulativePool (easy med hard : QPool) (wave : ℕ) : QPool :=
  (easy ++ if 4 ≤ wave then med else []) ++ if 8 ≤ wave then hard else []

/-- QuizGenerator.generate / EnglishGenerator.generate: draw one triple
uniformly from the cumulative pool. -/
def poolGenerate (easy med hard : QPool) (wave : ℕ) (rng : RNG) :
    (String × Answer × Answer × Answer) × RNG :=
  let pool := cumulativePool easy med hard wave
  let (r, rng) := randFloat rng
  let e := pool.getD (floorIdx r pool.length) ("", "", "", "")
  ((e.1, .str e.2.1, .str e.2.2.1, .str e.2.2.2), rng)

/-- One step of the three-element Fisher-Yates shuffle of
generateQuestion: swap positions i and j of the triple. -/
def swap3 (t : α × α × α) (i j : ℕ) : α × α × α :=
  if i = j then t
  else if (i = 2 ∧ j = 0) ∨ (i = 0 ∧ j = 2) then (t.2.2, t.2.1, t.1)
  else if (i = 2 ∧ j = 1) ∨ (i = 1 ∧ j = 2) then (t.1, t.2.2, t.2.1)
  else (t.2.1, t.1, t.2.2)

/-- Fisher-Yates shuffle of [answer, wrong1, wrong2] with the two random
indices j2 = Math.floor(Math.random()*3) and j1 = Math.floor(Math.random()*2)
drawn for i = 2 and i = 1. -/
def fyShuffle3 (a b c : α) (j2 j1 : ℕ) : α × α × α :=
  swap3 (swap3 (a, b, c) 2 j2) 1 j1

/-- Robot.generateQuestion: dispatch on the game mode, then shuffle the
three answers onto the zones head, chest, knee (in that array order). -/
def generateQuestion (mode : Mode) (wave : ℕ) (rng : RNG) (fuel : ℕ) :
    Option ((String × Answer × ZoneAnswers) × RNG) :=
  let gen : Option ((String × Answer × Answer × Answer) × RNG) :=
    match mode with
    | .quiz => some (poolGenerate quizEasy quizMedium quizHard wave rng)
    | .english => some (poolGenerate englishEasy englishMedium englishHard wave rng)
    | .math => mathGenerate wave rng fuel
  match gen with
  | none => none
  | some ((q, ans, w1, w2), rng) =>
    let j2 := floorIdx (randFloat rng).1 3
    let rng1 := (randFloat rng).2
    let j1 := floorIdx (randFloat rng1).1 2
    let s := fyShuffle3 ans w1 w2 j2 j1
    some ((q, ans, ⟨s.1, s.2.1, s.2.2⟩), (randFloat rng1).2)

/-- Weighted robot-type pool per wave from the Robot constructor. -/
def typePoolForWave (wave : ℕ) : List RType :=
  if 3 ≤ wave ∧ wave ≤ 5 then
    [.normal, .normal, .normal, .normal, .normal, .normal, .normal, .fast, .fast, .fast]
  else if 6 ≤ wave ∧ wave ≤ 9 then
    [.normal, .normal, .normal, .normal, .normal, .fast, .fast, .fast, .heavy, .heavy]
  else if 10 ≤ wave then
    [.normal, .normal, .normal, .normal, .fast, .fast, .fast, .fast, .heavy, .heavy]
  else [.normal]

/-- Robot constructor: draw the type from the wave pool, place the robot
at the player position plus the spawn offset (the [35, 50] distance and
±135° forward-arc angle trigonometry is abstracted into spawnOffset)
clamped into the arena, derive speed from the wave, and bind the question
via generateQuestion.  Fresh robots are alive, not dying, with zero
timers. -/
def robotCreate (wave : ℕ) (mode : Mode) (playerPos spawnOffset : ℚ × ℚ)
    (rng : RNG) (fuel : ℕ) : Option (Robot × RNG) :=
  let pool := typePoolForWave wave
  let (rt0, rng) := randFloat rng
  let rt := pool.getD (floorIdx rt0 pool.length) .normal
  match generateQuestion mode wave rng fuel with
  | none => none
  | some ((q, ans, za), rng) =>
    some ({ rtype := rt,
            pos := clamp2 robotBoundaryLimit (playerPos + spawnOffset),
            speed := rt.baseSpeed + wave * (1/10),
            alive := true, dying := false, dyingTimer := 0, attackCooldown := 0,
            question := q, correctAnswer := ans, answers := za }, rng)

/-- Player movement speed, const moveSpeed = 8. -/
def moveSpeed : ℚ := 8

/-- Sprint factor, const sprintMultiplier = 1.5. -/
def sprintMultiplier : ℚ := 3/2

/-- Gravity acceleration, const gravity = -25. -/
def playerGravity : ℚ := -25

/-- Ground level of the camera, the constant 2 in updatePlayerMovement. -/
def groundLevel : ℚ := 2

/-- Gameplay-relevant player state: camera ground-plane position, vertical
physics state (playerY, velocityY, isGrounded).  Head-bob offsets are
sinusoidal presentation and are not modelled. -/
structure PlayerState where
  pos : ℚ × ℚ
  y : ℚ
  velocityY : ℚ
  grounded : Bool
deriving DecidableEq, Repr

/-- Inputs of one updatePlayerMovement frame: the delta time, whether any
horizontal intent is present (moveX ≠ 0 or moveZ ≠ 0 from keys plus
joystick), the sprint key, and the normalized horizontal direction
forward * moveZ + right * moveX (camera-quaternion trigonometry
abstracted). -/
structure PFrame where
  dt : ℚ
  moving : Bool
  sprint : Bool
  moveDir : ℚ × ℚ
deriving Repr

/-- updatePlayerMovement: integrate gravity, snap to the ground, apply the
(possibly sprinting) horizontal movement when there is intent, and clamp
the camera into the player arena bound. -/
def updatePlayerMovement (p : PlayerState) (f : PFrame) : PlayerState :=
  let vy := p.velocityY + playerGravity * f.dt
  let y := p.y + vy * f.dt
  let grounded := if y ≤ groundLevel then true else p.grounded
  let vy := if y ≤ groundLevel then 0 else vy
  let y := if y ≤ groundLevel then groundLevel else y
  let speed := if f.sprint then moveSpeed * sprintMultiplier else moveSpeed
  let pos :=
    if f.moving then
      (p.pos.1 + f.moveDir.1 * (speed * f.dt), p.pos.2 + f.moveDir.2 * (speed * f.dt))
    else p.pos
  { pos := clamp2 playerBoundaryLimit pos, y := y, velocityY := vy, grounded := grounded }

/-- Squared distance of two 3D points (camera.position.distanceTo(q) < 3
is modelled as the equivalent squared comparison < 9, avoiding the
irrational square root). -/
def distSq (a b : ℚ × ℚ × ℚ) : ℚ :=
  (a.1 - b.1) ^ 2 + (a.2.1 - b.2.1) ^ 2 + (a.2.2 - b.2.2) ^ 2

/-- Collection test of the frame loop: distance to the pickup below the
collection radius 3. -/
def pickupNear (camPos : ℚ × ℚ × ℚ) (p : Pickup) : Bool :=
  decide (distSq camPos p.pos < 9)

/-- Pickup pass of the enhanced animate loop: walk the pickups in order;
any pickup within the collection radius heals by 20 capped at maxHealth
(the assignment runs even at full health, where it changes nothing) and
is marked collected; afterwards the collected ones are filtered out.
There is no other removal in the pass. -/
def pickupStep (camPos : ℚ × ℚ × ℚ) (acc : GState × List Pickup) (p : Pickup) :
    GState × List Pickup :=
  if pickupNear camPos p then
    ({ acc.1 with health := min acc.1.maxHealth (acc.1.health + 20) },
     acc.2 ++ [{ p with collected := true }])
  else (acc.1, acc.2 ++ [p])

def pickupSweep (camPos : ℚ × ℚ × ℚ) (g : GState) (ps : List Pickup) :
    GState × List Pickup :=
  let out := ps.foldl (pickupStep camPos) (g, [])
  (out.1, out.2.filter (fun p => !p.collected))

/-- Marking a pickup the way one pickupStep pass leaves it in the list. -/
def pickupMark (camPos : ℚ × ℚ × ℚ) (p : Pickup) : Pickup :=
  if pickupNear camPos p then { p with collected := true } else p

/-- Whole-session world: the game state plus the active-entity collections
and the spawner globals.  Particles and bullet trails are ephemeral
visual entities; only their presence matters to the claims, so they are
kept as their life countdowns. -/
structure World where
  gs : GState
  robots : List Robot
  pickups : List Pickup
  particles : List ℚ
  bullets : List ℚ
  spawnTimer : ℚ
  spawnInterval : ℚ
  player : PlayerState
deriving Repr

/-- startGame of the enhanced build: reset score, wave, health, combo,
kills and isRunning, reset the camera and physics, clear the robots,
pickups, particles and bullets, reset the spawner globals, and push one
first robot.  The fields isPaused and mode are not assigned by the
handler; the freshly constructed first robot is passed in. -/
def startGame (w : World) (firstRobot : Robot) : World :=
  { gs := { w.gs with
      score := 0, wave := 1, health := w.gs.maxHealth,
      combo := 1, kills := 0, isRunning := true },
    robots := [firstRobot], pickups := [], particles := [], bullets := [],
    spawnTimer := 0, spawnInterval := 2,
    player := { pos := (0, 0), y := 2, velocityY := 0, grounded := true } }

/-- State of the single-robot attack-cooldown simulation: the robot, the
game state, the accumulated simulated time, and the timestamps of the
damage applications so far (most recent first). -/
structure SimState where
  robot : Robot
  gs : GState
  time : ℚ
  attacks : List ℚ
deriving Repr

/-- One simulated frame: advance time by dt, run Robot.update, and record
the timestamp when damage was applied. -/
def simStep (s : SimState) (f : RFrame) : SimState :=
  let t := s.time + f.dt
  let out := robotUpdate s.robot s.gs f
  { robot := out.1, gs := out.2.1, time := t,
    attacks := if out.2.2 then t :: s.attacks else s.attacks }

/-- Run a list of simulated frames. -/
def simRun (s : SimState) (fs : List RFrame) : SimState := fs.foldl simStep s

/-- Consecutive timestamps (most recent first) are at least 1.5 s of
simulated time apart. -/
def gapsOK : List ℚ → Prop
  | a :: b :: rest => b + 3/2 ≤ a ∧ gapsOK (b :: rest)
  | _ => True

/-- Boolean check that one pool triple has an answer different from both
wrong answers and two different wrong answers. -/
def triDistinct (e : String × String × String × String) : Bool :=
  decide (e.2.1 ≠ e.2.2.1) && decide (e.2.1 ≠ e.2.2.2) && decide (e.2.2.1 ≠ e.2.2.2)

/-! Helper lemmas about the hit-resolution state transitions. -/

theorem applyCorrectHit_score (g : GState) (si : ℚ) :
    (applyCorrectHit g si).1.score = g.score + 100 * g.combo := by
  simp only [applyCorrectHit]
  split
  · split <;> rfl
  · rfl

theorem applyCorrectHit_kills (g : GState) (si : ℚ) :
    (applyCorrectHit g si).1.kills = g.kills + 1 := by
  simp only [applyCorrectHit]
  split
  · split <;> rfl
  · rfl

theorem applyCorrectHit_combo (g : GState) (si : ℚ) :
    (applyCorrectHit g si).1.combo = min (g.combo + 1) 10 := by
  simp only [applyCorrectHit]
  split
  · split <;> rfl
  · rfl

/-! Claim C5: which arena clamp bound is larger. -/

/-- C5, counterexample: the claim says the player clamp interval strictly
contains the enemy clamp interval; in the code the enemy bound is 45 and
the player bound only 35, so the point (45, 45) survives the enemy clamp
yet is outside the player interval (and the strict inequality between the
two bounds goes the other way). -/
theorem playerBound_contains_robotBound_false :
    inBounds robotBoundaryLimit (45, 45) ∧
    ¬ inBounds playerBoundaryLimit (45, 45) ∧
    clamp2 robotBoundaryLimit (45, 45) = (45, 45) ∧
    playerBoundaryLimit < robotBoundaryLimit := by
  refine ⟨by decide, by decide, ?_, by decide⟩
  simp [clamp2, clampB, robotBoundaryLimit]

/-- C5, amended: the containment is the reverse of the claim — the enemy
arena clamp bound (45) is strictly larger than the player clamp bound
(35), so the player clamp interval is strictly contained in the enemy
clamp interval on both ground axes: enemies can stand closer to the
boundary walls than the player can ever be clamped. -/
theorem robotBound_strictly_contains_playerBound :
    playerBoundaryLimit < robotBoundaryLimit ∧
    (∀ p : ℚ × ℚ, inBounds playerBoundaryLimit p → inBounds robotBoundaryLimit p) ∧
    inBounds robotBoundaryLimit (45, 45) ∧
    ¬ inBounds playerBoundaryLimit (45, 45) := by
  refine ⟨by decide, ?_, by decide, by decide⟩
  rintro ⟨x, z⟩ ⟨h1, h2, h3, h4⟩
  simp only [inBounds, playerBoundaryLimit, robotBoundaryLimit] at *
  constructor
  · linarith
  · exact ⟨by linarith, by linarith, by linarith⟩

/-- C5 witness: the amended containment applied at the concrete point
(10, -35). -/
theorem robotBound_strictly_contains_playerBound_witness :
    inBounds robotBoundaryLimit (10, -35) :=
  robotBound_strictly_contains_playerBound.2.1 (10, -35) (by decide)

/-! Claim C9: the startGame reset. -/

/-- C9, counterexample: startGame does not assign isPaused, so starting
from a paused state (reachable because the wave-ad gate and the Escape
key set isPaused) leaves isPaused = true instead of the initial false;
moreover the enemies collection is not left empty — the handler pushes
one first robot before returning. -/
theorem startGame_reset_cex :
    (startGame
      ⟨⟨500, 3, 40, 100, 4, 12, true, true, Mode.math⟩,
       [], [], [], [], 1, 1, ⟨(3, 3), 2, 0, true⟩⟩ defRobot).gs.isPaused ≠ false ∧
    (startGame
      ⟨⟨500, 3, 40, 100, 4, 12, true, true, Mode.math⟩,
       [], [], [], [], 1, 1, ⟨(3, 3), 2, 0, true⟩⟩ defRobot).robots ≠ [] := by
  constructor <;> simp [startGame]

/-- C9, amended: startGame resets score to 0, wave to 1, health to
maxHealth, combo to 1, kills to 0 and isRunning to true, empties the
pickup, particle and bullet collections, replaces the robot collection
with the single freshly spawned first robot, resets spawnTimer to 0 and
spawnInterval to its 2.0 s starting value, and resets the player physics
state; isPaused and mode are left at their previous values (they are not
assigned by the handler). -/
theorem startGame_resets_state (w : World) (r : Robot) :
    (startGame w r).gs.score = 0 ∧
    (startGame w r).gs.wave = 1 ∧
    (startGame w r).gs.health = w.gs.maxHealth ∧
    (startGame w r).gs.maxHealth = w.gs.maxHealth ∧
    (startGame w r).gs.combo = 1 ∧
    (startGame w r).gs.kills = 0 ∧
    (startGame w r).gs.isRunning = true ∧
    (startGame w r).gs.isPaused = w.gs.isPaused ∧
    (startGame w r).gs.mode = w.gs.mode ∧
    (startGame w r).robots = [r] ∧
    (startGame w r).pickups = [] ∧
    (startGame w r).particles = [] ∧
    (startGame w r).bullets = [] ∧
    (startGame w r).spawnTimer = 0 ∧
    (startGame w r).spawnInterval = 2 ∧
    (startGame w r).player = ⟨(0, 0), 2, 0, true⟩ := by
  simp [startGame]

/-! Claim C2: the every-5th-kill wave advance. -/

/-- C2, counterexample: in the basic build variant the wave advance does
not heal — from wave 1, kills 4, health 50 (maxHealth 150) a correct hit
reaches kills 5 and wave 2 but leaves health at 50, not at the claimed
min(maxHealth, health + 20) = 70. -/
theorem wave_advance_basic_no_heal_cex :
    (applyCorrectHitBasic ⟨0, 1, 50, 150, 1, 4, true, false, Mode.math⟩ 2).1.kills = 5 ∧
    (applyCorrectHitBasic ⟨0, 1, 50, 150, 1, 4, true, false, Mode.math⟩ 2).1.wave = 2 ∧
    (applyCorrectHitBasic ⟨0, 1, 50, 150, 1, 4, true, false, Mode.math⟩ 2).1.health = 50 ∧
    (50 : ℤ) ≠ min 150 (50 + 20) := by
  refine ⟨rfl, rfl, rfl, by decide⟩

/-- C2, amended: on a correct hit that makes kills a multiple of 5 the
wave increments by exactly 1 and spawnInterval becomes
max(floor, spawnInterval - 0.2) — the floor being 0.6 in the enhanced
build and 0.8 in the basic build, so it never reaches zero; the +20 heal
capped at maxHealth happens only in the enhanced build, while the basic
build leaves health unchanged.  The concrete scenario wave=1, kills=4,
health=80 in the enhanced build yields kills=5, wave=2, spawnInterval
1.8 and health 100. -/
theorem applyCorrectHit_wave (g : GState) (si : ℚ) (h : (g.kills + 1) % 5 = 0) :
    (applyCorrectHit g si).1.wave = g.wave + 1 := by
  simp only [applyCorrectHit]
  split
  · split <;> rfl
  · next hp => exact absurd h hp

theorem applyCorrectHit_health (g : GState) (si : ℚ) (h : (g.kills + 1) % 5 = 0) :
    (applyCorrectHit g si).1.health = min g.maxHealth (g.health + 20) := by
  simp only [applyCorrectHit]
  split
  · split <;> rfl
  · next hp => exact absurd h hp

theorem applyCorrectHit_si (g : GState) (si : ℚ) (h : (g.kills + 1) % 5 = 0) :
    (applyCorrectHit g si).2 = max (3/5) (si - 1/5) := by
  simp only [applyCorrectHit]
  split
  · split <;> rfl
  · next hp => exact absurd h hp

theorem applyCorrectHitBasic_wave (g : GState) (si : ℚ) (h : (g.kills + 1) % 5 = 0) :
    (applyCorrectHitBasic g si).1.wave = g.wave + 1 := by
  simp only [applyCorrectHitBasic]
  split
  · rfl
  · next hp => exact absurd h hp

theorem applyCorrectHitBasic_health (g : GState) (si : ℚ) :
    (applyCorrectHitBasic g si).1.health = g.health := by
  simp only [applyCorrectHitBasic]
  split <;> rfl

theorem applyCorrectHitBasic_si (g : GState) (si : ℚ) (h : (g.kills + 1) % 5 = 0) :
    (applyCorrectHitBasic g si).2 = max (4/5) (si - 1/5) := by
  simp only [applyCorrectHitBasic]
  split
  · rfl
  · next hp => exact absurd h hp

theorem wave_advance_spec (g : GState) (si : ℚ) (h : (g.kills + 1) % 5 = 0) :
    (applyCorrectHit g si).1.kills = g.kills + 1 ∧
    (applyCorrectHit g si).1.wave = g.wave + 1 ∧
    (applyCorrectHit g si).1.health = min g.maxHealth (g.health + 20) ∧
    (applyCorrectHit g si).2 = max (3/5) (si - 1/5) ∧
    3/5 ≤ (applyCorrectHit g si).2 ∧
    0 < (applyCorrectHit g si).2 ∧
    (4/5 ≤ si → (applyCorrectHit g si).2 = si - 1/5) ∧
    (applyCorrectHitBasic g si).1.wave = g.wave + 1 ∧
    (applyCorrectHitBasic g si).1.health = g.health ∧
    (applyCorrectHitBasic g si).2 = max (4/5) (si - 1/5) ∧
    4/5 ≤ (applyCorrectHitBasic g si).2 ∧
    applyCorrectHit ⟨0, 1, 80, 100, 1, 4, true, false, Mode.math⟩ 2 =
      (⟨100, 2, 100, 100, 2, 5, true, false, Mode.math⟩, 9/5) := by
  have hsi := applyCorrectHit_si g si h
  have hsib := applyCorrectHitBasic_si g si h
  refine ⟨applyCorrectHit_kills g si, applyCorrectHit_wave g si h,
    applyCorrectHit_health g si h, hsi, ?_, ?_, ?_,
    applyCorrectHitBasic_wave g si h, applyCorrectHitBasic_health g si,
    hsib, ?_, ?_⟩
  · rw [hsi]; exact le_max_left _ _
  · rw [hsi]; positivity
  · intro hle
    rw [hsi, max_eq_right]
    linarith
  · rw [hsib]; exact le_max_left _ _
  · simp only [applyCorrectHit, shouldShowWaveAd]
    norm_num [max_def, min_def]

/-- C2 witness: the amended wave-advance facts applied at the concrete
state wave=1, kills=4, health=80, maxHealth=100, spawnInterval=2. -/
theorem wave_advance_spec_witness :
    (applyCorrectHit ⟨0, 1, 80, 100, 1, 4, true, false, Mode.math⟩ 2).1.wave = 1 + 1 :=
  (wave_advance_spec ⟨0, 1, 80, 100, 1, 4, true, false, Mode.math⟩ 2 (by decide)).2.1

/-! Claim C1: per-hit scoring, combo and kill accounting. -/

theorem applyWrongHit_combo (g : GState) : (applyWrongHit g).combo = 1 := rfl

theorem applyWrongHit_score (g : GState) : (applyWrongHit g).score = g.score := rfl

theorem resolveShot_correct_head (g : GState) (si : ℚ) (droll : Bool)
    (r : Robot) (z : Zone) (rest : List (Robot × Option Zone))
    (hd : r.dying = false) (hc : r.answers.get z = r.correctAnswer) :
    resolveShot g si droll ((r, some z) :: rest) =
      ⟨(applyCorrectHit g si).1, (applyCorrectHit g si).2,
       { r with dying := true } :: rest.map Prod.fst,
       if droll then [⟨(r.pos.1, 0, r.pos.2), false⟩] else []⟩ := by
  simp [resolveShot, hd, hc]

theorem resolveShot_wrong_head (g : GState) (si : ℚ) (droll : Bool)
    (r : Robot) (z : Zone) (rest : List (Robot × Option Zone))
    (hd : r.dying = false) (hc : ¬ r.answers.get z = r.correctAnswer) :
    resolveShot g si droll ((r, some z) :: rest) =
      ⟨applyWrongHit g, si, r :: rest.map Prod.fst, []⟩ := by
  simp [resolveShot, hd, hc]

/-- C1: a correct hit sets the struck enemy dying, adds 100 * combo to
the score, adds 1 to kills and advances combo to min(combo+1, 10); a
wrong hit resets combo to 1 and leaves score, kills and the enemy
unchanged.  Three correct hits from combo 1 followed by one wrong hit
drive combo 1→2→3→4→1 with score increments 100, 200, 300 and then 0,
and combo never leaves [1, 10]. -/
theorem hit_scoring_spec (g : GState) (si : ℚ) (h1 : 1 ≤ g.combo) (h2 : g.combo ≤ 10) :
    (applyCorrectHit g si).1.score = g.score + 100 * g.combo ∧
    (applyCorrectHit g si).1.kills = g.kills + 1 ∧
    (applyCorrectHit g si).1.combo = min (g.combo + 1) 10 ∧
    1 ≤ (applyCorrectHit g si).1.combo ∧ (applyCorrectHit g si).1.combo ≤ 10 ∧
    (applyWrongHit g).combo = 1 ∧
    (applyWrongHit g).score = g.score ∧
    (applyWrongHit g).kills = g.kills ∧
    1 ≤ (applyWrongHit g).combo ∧ (applyWrongHit g).combo ≤ 10 ∧
    (∀ (droll : Bool) (r : Robot) (z : Zone) (rest : List (Robot × Option Zone)),
      r.dying = false → r.answers.get z = r.correctAnswer →
        (resolveShot g si droll ((r, some z) :: rest)).gs = (applyCorrectHit g si).1 ∧
        (resolveShot g si droll ((r, some z) :: rest)).robots.getD 0 defRobot =
          { r with dying := true }) ∧
    (∀ (droll : Bool) (r : Robot) (z : Zone) (rest : List (Robot × Option Zone)),
      r.dying = false → ¬ r.answers.get z = r.correctAnswer →
        (resolveShot g si droll ((r, some z) :: rest)).gs = applyWrongHit g ∧
        (resolveShot g si droll ((r, some z) :: rest)).robots.getD 0 defRobot = r) ∧
    (g.combo = 1 →
      (applyCorrectHit g si).1.combo = 2 ∧
      (applyCorrectHit (applyCorrectHit g si).1 (applyCorrectHit g si).2).1.combo = 3 ∧
      (applyCorrectHit (applyCorrectHit (applyCorrectHit g si).1 (applyCorrectHit g si).2).1
        (applyCorrectHit (applyCorrectHit g si).1 (applyCorrectHit g si).2).2).1.combo = 4 ∧
      (applyWrongHit (applyCorrectHit (applyCorrectHit (applyCorrectHit g si).1
        (applyCorrectHit g si).2).1
        (applyCorrectHit (applyCorrectHit g si).1 (applyCorrectHit g si).2).2).1).combo = 1 ∧
      (applyCorrectHit g si).1.score = g.score + 100 * 1 ∧
      (applyCorrectHit (applyCorrectHit g si).1 (applyCorrectHit g si).2).1.score =
        (applyCorrectHit g si).1.score + 100 * 2 ∧
      (applyCorrectHit (applyCorrectHit (applyCorrectHit g si).1 (applyCorrectHit g si).2).1
        (applyCorrectHit (applyCorrectHit g si).1 (applyCorrectHit g si).2).2).1.score =
        (applyCorrectHit (applyCorrectHit g si).1 (applyCorrectHit g si).2).1.score + 100 * 3 ∧
      (applyWrongHit (applyCorrectHit (applyCorrectHit (applyCorrectHit g si).1
        (applyCorrectHit g si).2).1
        (applyCorrectHit (applyCorrectHit g si).1 (applyCorrectHit g si).2).2).1).score =
        (applyCorrectHit (applyCorrectHit (applyCorrectHit g si).1 (applyCorrectHit g si).2).1
          (applyCorrectHit (applyCorrectHit g si).1 (applyCorrectHit g si).2).2).1.score) := by
  have hcmb : ∀ g2 : GState, ∀ si2 : ℚ,
      (applyCorrectHit g2 si2).1.combo = min (g2.combo + 1) 10 :=
    fun g2 si2 => applyCorrectHit_combo g2 si2
  refine ⟨applyCorrectHit_score g si, applyCorrectHit_kills g si, hcmb g si, ?_, ?_,
    rfl, rfl, rfl, le_refl 1, by norm_num [applyWrongHit], ?_, ?_, ?_⟩
  · rw [hcmb g si]; omega
  · rw [hcmb g si]; omega
  · intro droll r z rest hd hc
    rw [resolveShot_correct_head g si droll r z rest hd hc]
    exact ⟨rfl, rfl⟩
  · intro droll r z rest hd hc
    rw [resolveShot_wrong_head g si droll r z rest hd hc]
    exact ⟨rfl, rfl⟩
  · intro hg1
    have c1 : (applyCorrectHit g si).1.combo = 2 := by
      rw [hcmb g si, hg1]
      norm_num
    have c2 : (applyCorrectHit (applyCorrectHit g si).1 (applyCorrectHit g si).2).1.combo = 3 := by
      rw [hcmb, c1]
      norm_num
    have c3 := hcmb (applyCorrectHit (applyCorrectHit g si).1 (applyCorrectHit g si).2).1
      (applyCorrectHit (applyCorrectHit g si).1 (applyCorrectHit g si).2).2
    rw [c2] at c3
    norm_num at c3
    refine ⟨c1, c2, c3, applyWrongHit_combo _, ?_, ?_, ?_, applyWrongHit_score _⟩
    · rw [applyCorrectHit_score, hg1]
    · rw [applyCorrectHit_score, c1]
    · rw [applyCorrectHit_score, c2]

/-- C1 witness: the scoring facts applied at a concrete state with
combo 3. -/
theorem hit_scoring_spec_witness :
    (applyCorrectHit ⟨1000, 2, 80, 100, 3, 7, true, false, Mode.math⟩ 2).1.score =
      1000 + 100 * 3 :=
  (hit_scoring_spec ⟨1000, 2, 80, 100, 3, 7, true, false, Mode.math⟩ 2
    (by decide) (by decide)).1

/-! Claim C4: one resolved enemy per fire event, dying enemies skipped. -/

theorem resolveShot_skip_front (g : GState) (si : ℚ) (droll : Bool)
    (pre : List (Robot × Option Zone))
    (hpre : ∀ e ∈ pre, e.1.dying = true ∨ e.2 = none)
    (tail : List (Robot × Option Zone)) :
    resolveShot g si droll (pre ++ tail) =
      ⟨(resolveShot g si droll tail).gs,
       (resolveShot g si droll tail).spawnInterval,
       pre.map Prod.fst ++ (resolveShot g si droll tail).robots,
       (resolveShot g si droll tail).drops⟩ := by
  induction pre with
  | nil => simp
  | cons e pre ih =>
    obtain ⟨r, hit⟩ := e
    have hrec := ih (fun e he => hpre e (List.mem_cons_of_mem _ he))
    cases hd : r.dying with
    | true =>
      simp only [List.cons_append, resolveShot, hd, List.append_eq, if_true]
      rw [hrec]
      simp
    | false =>
      have hn : hit = none := by
        rcases hpre (r, hit) (List.mem_cons_self _ _) with h | h
        · rw [hd] at h; cases h
        · exact h
      subst hn
      simp only [List.cons_append, resolveShot, hd, List.append_eq, Bool.false_eq_true,
        if_false]
      rw [hrec]
      simp

/-- C4: the fire event resolves at most one enemy.  Any prefix of robots
that are dying or missed by the ray is passed over unchanged; if no robot
is both alive and intersected, the whole event is a state no-op (in
particular, a hit registered against a dying enemy changes neither the
game state nor any enemy, and the total Lean functions raise nothing);
the first non-dying intersected robot receives all consequences while
every robot before and after it is returned untouched; and the handler is
a no-op when the game is not running or paused. -/
theorem fire_event_single_resolution (g : GState) (si : ℚ) (droll : Bool) :
    (∀ entries : List (Robot × Option Zone),
      (∀ e ∈ entries, e.1.dying = true ∨ e.2 = none) →
        resolveShot g si droll entries = ⟨g, si, entries.map Prod.fst, []⟩) ∧
    (∀ (pre post : List (Robot × Option Zone)) (r : Robot) (z : Zone),
      (∀ e ∈ pre, e.1.dying = true ∨ e.2 = none) → r.dying = false →
        (resolveShot g si droll (pre ++ (r, some z) :: post)).robots =
          pre.map Prod.fst ++
            (if r.answers.get z = r.correctAnswer then { r with dying := true } else r)
              :: post.map Prod.fst ∧
        (resolveShot g si droll (pre ++ (r, some z) :: post)).gs =
          (if r.answers.get z = r.correctAnswer then (applyCorrectHit g si).1
           else applyWrongHit g)) ∧
    (∀ entries : List (Robot × Option Zone), g.isRunning = false ∨ g.isPaused = true →
      onShoot g si droll entries = ⟨g, si, entries.map Prod.fst, []⟩) := by
  refine ⟨?_, ?_, ?_⟩
  · intro entries hall
    have := resolveShot_skip_front g si droll entries hall []
    simpa [resolveShot] using this
  · intro pre post r z hpre hd
    rw [resolveShot_skip_front g si droll pre hpre ((r, some z) :: post)]
    by_cases hc : r.answers.get z = r.correctAnswer
    · rw [resolveShot_correct_head g si droll r z post hd hc]
      simp [hc]
    · rw [resolveShot_wrong_head g si droll r z post hd hc]
      simp [hc]
  · intro entries hg
    rcases hg with hg | hg <;> simp [onShoot, hg]

/-- C4 witness: a fire event whose only candidate is a dying enemy that
the ray does hit is a complete no-op on the game state. -/
theorem fire_event_single_resolution_witness :
    resolveShot ⟨0, 1, 100, 100, 1, 0, true, false, Mode.math⟩ 2 false
        [({ defRobot with dying := true }, some Zone.head)] =
      ⟨⟨0, 1, 100, 100, 1, 0, true, false, Mode.math⟩, 2,
       [{ defRobot with dying := true }], []⟩ :=
  (fire_event_single_resolution ⟨0, 1, 100, 100, 1, 0, true, false, Mode.math⟩ 2 false).1
    [({ defRobot with dying := true }, some Zone.head)] (by simp)

/-! Claim C6: arena clamp bounds after every update. -/

theorem clamp2_inBounds (limit : ℚ) (p : ℚ × ℚ) (h : 0 ≤ limit) :
    inBounds limit (clamp2 limit p) := by
  refine ⟨le_max_left _ _, ?_, le_max_left _ _, ?_⟩
  · exact max_le (by linarith) (min_le_left _ _)
  · exact max_le (by linarith) (min_le_left _ _)

theorem attackPlayer_inBounds (r : Robot) (g : GState) (f : RFrame)
    (hb : inBounds robotBoundaryLimit r.pos) :
    inBounds robotBoundaryLimit (attackPlayer r g f).1.pos := by
  simp only [attackPlayer]
  split
  · exact hb
  · split
    · exact hb
    · exact clamp2_inBounds _ _ (by norm_num [robotBoundaryLimit])

theorem robotUpdate_inBounds (r : Robot) (g : GState) (f : RFrame)
    (hb : inBounds robotBoundaryLimit r.pos) :
    inBounds robotBoundaryLimit (robotUpdate r g f).1.pos := by
  simp only [robotUpdate]
  split
  · split <;> simpa using hb
  · split <;> split
    · apply attackPlayer_inBounds
      apply clamp2_inBounds
      norm_num [robotBoundaryLimit]
    · apply clamp2_inBounds
      norm_num [robotBoundaryLimit]
    · apply attackPlayer_inBounds
      apply clamp2_inBounds
      norm_num [robotBoundaryLimit]
    · apply clamp2_inBounds
      norm_num [robotBoundaryLimit]

/-- C6: robots are inside the enemy arena bound after the constructor,
after every per-frame update and after a respawn-after-attack (the dying
branch leaves the position where it already was, so being in bounds is
preserved), and the player camera is inside the player arena bound after
every movement update. -/
theorem arena_bounds_invariant :
    (∀ (wave : ℕ) (mode : Mode) (pp so : ℚ × ℚ) (rng : RNG) (fuel : ℕ)
        (r : Robot) (rng2 : RNG),
      robotCreate wave mode pp so rng fuel = some (r, rng2) →
        inBounds robotBoundaryLimit r.pos) ∧
    (∀ (r : Robot) (g : GState) (f : RFrame), inBounds robotBoundaryLimit r.pos →
      inBounds robotBoundaryLimit (robotUpdate r g f).1.pos) ∧
    (∀ (r : Robot) (g : GState) (f : RFrame), inBounds robotBoundaryLimit r.pos →
      inBounds robotBoundaryLimit (attackPlayer r g f).1.pos) ∧
    (∀ (p : PlayerState) (f : PFrame),
      inBounds playerBoundaryLimit (updatePlayerMovement p f).pos) := by
  refine ⟨?_, robotUpdate_inBounds, attackPlayer_inBounds, ?_⟩
  · intro wave mode pp so rng fuel r rng2 h
    simp only [robotCreate] at h
    split at h
    · exact absurd h (by simp)
    · rw [Option.some.injEq, Prod.mk.injEq] at h
      obtain ⟨h1, h2⟩ := h
      subst h1
      exact clamp2_inBounds _ _ (by norm_num [robotBoundaryLimit])
  · intro p f
    exact clamp2_inBounds _ _ (by norm_num [playerBoundaryLimit])

/-- C6 witness: a robot standing at the origin stays inside the enemy
arena bound after one concrete update frame. -/
theorem arena_bounds_invariant_witness :
    inBounds robotBoundaryLimit
      (robotUpdate defRobot ⟨0, 1, 100, 100, 1, 0, true, false, Mode.math⟩
        ⟨1, false, (3, 4), (0, 0), (0, 0)⟩).1.pos :=
  arena_bounds_invariant.2.1 defRobot ⟨0, 1, 100, 100, 1, 0, true, false, Mode.math⟩
    ⟨1, false, (3, 4), (0, 0), (0, 0)⟩ (by decide)

/-! Claim C7: the 1.5 s attack cooldown. -/

theorem robotUpdate_cd_lower (r : Robot) (g : GState) (f : RFrame) (hdt : 0 ≤ f.dt) :
    r.attackCooldown - f.dt ≤ (robotUpdate r g f).1.attackCooldown := by
  have hite : r.attackCooldown - f.dt ≤
      (if 0 < r.attackCooldown then r.attackCooldown - f.dt else r.attackCooldown) := by
    split <;> linarith
  by_cases hd : r.dying = true
  · simp only [robotUpdate, hd, if_true]
    split <;> simp <;> linarith
  · by_cases hc : f.inRange = true ∧
        (if 0 < r.attackCooldown then r.attackCooldown - f.dt else r.attackCooldown) ≤ 0
    · have hcle := hc.2
      by_cases hrun : g.isRunning = false
      · simp only [robotUpdate, attackPlayer, hd, hc, hrun, if_true, if_false]
        simpa using hite
      · by_cases hh : g.health - r.rtype.damage ≤ 0
        · simp only [robotUpdate, attackPlayer, hd, hc, hrun, hh, if_true, if_false]
          simp
          linarith
        · simp only [robotUpdate, attackPlayer, hd, hc, hrun, hh, if_true, if_false]
          simp
          linarith
    · simp only [robotUpdate, hd, hc, if_false]
      simpa using hite

theorem robotUpdate_attack_full (r : Robot) (g : GState) (f : RFrame)
    (h : (robotUpdate r g f).2.2 = true) :
    r.dying = false ∧ g.isRunning = true ∧
    (robotUpdate r g f).1.attackCooldown = 3/2 ∧
    (if 0 < r.attackCooldown then r.attackCooldown - f.dt else r.attackCooldown) ≤ 0 := by
  by_cases hd : r.dying = true
  · exfalso
    simp only [robotUpdate, hd, if_true] at h
    simp at h
  · by_cases hc : f.inRange = true ∧
        (if 0 < r.attackCooldown then r.attackCooldown - f.dt else r.attackCooldown) ≤ 0
    · by_cases hrun : g.isRunning = false
      · exfalso
        simp only [robotUpdate, attackPlayer, hd, hc, hrun, if_true, if_false] at h
        simp at h
      · by_cases hh : g.health - r.rtype.damage ≤ 0
        · refine ⟨by simpa using hd, by simpa using hrun, ?_, hc.2⟩
          simp only [robotUpdate, attackPlayer, hd, hc, hrun, hh, if_true, if_false]
          simp
        · refine ⟨by simpa using hd, by simpa using hrun, ?_, hc.2⟩
          simp only [robotUpdate, attackPlayer, hd, hc, hrun, hh, if_true, if_false]
          simp
    · exfalso
      simp only [robotUpdate, hd, hc, if_false] at h
      simp at h

theorem robotUpdate_no_attack_cd (r : Robot) (g : GState) (f : RFrame)
    (hd : r.dying = false) (h : (robotUpdate r g f).2.2 = false) :
    (robotUpdate r g f).1.attackCooldown =
      if 0 < r.attackCooldown then r.attackCooldown - f.dt else r.attackCooldown := by
  have hd2 : ¬ r.dying = true := by simp [hd]
  by_cases hc : f.inRange = true ∧
      (if 0 < r.attackCooldown then r.attackCooldown - f.dt else r.attackCooldown) ≤ 0
  · by_cases hrun : g.isRunning = false
    · simp only [robotUpdate, attackPlayer, hd2, hc, hrun, if_true, if_false]
      simp
    · exfalso
      by_cases hh : g.health - r.rtype.damage ≤ 0 <;>
        simp only [robotUpdate, attackPlayer, hd2, hc, hrun, hh, if_true, if_false] at h <;>
        simp at h
  · simp only [robotUpdate, hd2, hc, if_false]
    simp

theorem simStep_inv (s : SimState) (f : RFrame) (hdt : 0 ≤ f.dt)
    (h1 : gapsOK s.attacks)
    (h2 : ∀ t0, s.attacks.head? = some t0 →
      3/2 - (s.time - t0) ≤ s.robot.attackCooldown ∧ t0 ≤ s.time) :
    gapsOK (simStep s f).attacks ∧
    ∀ t0, (simStep s f).attacks.head? = some t0 →
      3/2 - ((simStep s f).time - t0) ≤ (simStep s f).robot.attackCooldown ∧
      t0 ≤ (simStep s f).time := by
  have hlow := robotUpdate_cd_lower s.robot s.gs f hdt
  cases hatt : (robotUpdate s.robot s.gs f).2.2 with
  | false =>
    simp only [simStep, hatt, Bool.false_eq_true, if_false]
    refine ⟨h1, ?_⟩
    intro t0 ht0
    obtain ⟨hb, hle⟩ := h2 t0 ht0
    constructor
    · linarith
    · linarith
  | true =>
    obtain ⟨hdying, hrun, hcd32, hcdle⟩ := robotUpdate_attack_full s.robot s.gs f hatt
    have hlow2 : s.robot.attackCooldown - f.dt ≤
        (if 0 < s.robot.attackCooldown then s.robot.attackCooldown - f.dt
         else s.robot.attackCooldown) := by
      split <;> linarith
    simp only [simStep, hatt, if_true]
    constructor
    · cases hl : s.attacks with
      | nil => simp [gapsOK, hl]
      | cons t0 rest =>
        rw [hl] at h1 h2
        obtain ⟨hb, hle⟩ := h2 t0 rfl
        exact ⟨by linarith, h1⟩
    · intro t0 ht0
      simp only [List.head?_cons, Option.some.injEq] at ht0
      subst ht0
      rw [hcd32]
      constructor
      · linarith
      · linarith

theorem simRun_inv (fs : List RFrame) : ∀ s : SimState, (∀ f ∈ fs, 0 ≤ f.dt) →
    gapsOK s.attacks →
    (∀ t0, s.attacks.head? = some t0 →
      3/2 - (s.time - t0) ≤ s.robot.attackCooldown ∧ t0 ≤ s.time) →
    gapsOK (simRun s fs).attacks := by
  induction fs with
  | nil => intro s _ h1 _; simpa [simRun] using h1
  | cons f fs ih =>
    intro s hdt h1 h2
    have hstep := simStep_inv s f (hdt f (List.mem_cons_self _ _)) h1 h2
    exact ih (simStep s f) (fun f2 hf2 => hdt f2 (List.mem_cons_of_mem _ hf2))
      hstep.1 hstep.2

/-- C7, amended: the attack cooldown is decremented by dt each frame while
positive (and may transiently dip below zero, since the subtraction is not
clamped); an attack fires only once the decremented cooldown is ≤ 0 and
then resets it to 1.5 s; consequently, over any frame sequence with
nonnegative deltas, consecutive damage applications of a single enemy are
at least 1.5 s of simulated time apart. -/
theorem attack_cooldown_spacing (r0 : Robot) (g0 : GState) (frames : List RFrame)
    (hdt : ∀ f ∈ frames, 0 ≤ f.dt) :
    gapsOK (simRun ⟨r0, g0, 0, []⟩ frames).attacks ∧
    (∀ (r : Robot) (g : GState) (f : RFrame), (robotUpdate r g f).2.2 = true →
      (robotUpdate r g f).1.attackCooldown = 3/2 ∧
      (if 0 < r.attackCooldown then r.attackCooldown - f.dt else r.attackCooldown) ≤ 0) ∧
    (∀ (r : Robot) (g : GState) (f : RFrame), r.dying = false →
      (robotUpdate r g f).2.2 = false →
      (robotUpdate r g f).1.attackCooldown =
        if 0 < r.attackCooldown then r.attackCooldown - f.dt else r.attackCooldown) := by
  refine ⟨?_, ?_, robotUpdate_no_attack_cd⟩
  · exact simRun_inv frames ⟨r0, g0, 0, []⟩ hdt (by simp [gapsOK]) (by simp)
  · intro r g f h
    obtain ⟨_, _, h3, h4⟩ := robotUpdate_attack_full r g f h
    exact ⟨h3, h4⟩

/-- C7 witness: the spacing guarantee applied to a robot kept in range
for two concrete frames of 1 s each. -/
theorem attack_cooldown_spacing_witness :
    gapsOK (simRun ⟨defRobot, ⟨0, 1, 100, 100, 1, 0, true, false, Mode.math⟩, 0, []⟩
      [⟨1, true, (0, 0), (0, 0), (0, 0)⟩, ⟨1, true, (0, 0), (0, 0), (0, 0)⟩]).attacks :=
  (attack_cooldown_spacing defRobot ⟨0, 1, 100, 100, 1, 0, true, false, Mode.math⟩
    [⟨1, true, (0, 0), (0, 0), (0, 0)⟩, ⟨1, true, (0, 0), (0, 0), (0, 0)⟩]
    (by
      intro f hf
      rcases List.mem_cons.mp hf with rfl | hf
      · norm_num
      rcases List.mem_cons.mp hf with rfl | hf
      · norm_num
      · cases hf)).1

/-- C7, counterexample to the ≥ 0 part of the claim: a robot whose
cooldown stands at 1.5 s updated with a 2 s frame delta ends the frame
with attackCooldown = -0.5 < 0: the decrement is not clamped at zero. -/
theorem attack_cooldown_nonneg_cex :
    (robotUpdate { defRobot with attackCooldown := 3/2 }
        ⟨0, 1, 100, 100, 1, 0, true, false, Mode.math⟩
        ⟨2, false, (0, 0), (0, 0), (0, 0)⟩).1.attackCooldown = -(1/2) ∧
    ¬ (0 ≤ (-(1/2) : ℚ)) := by
  constructor
  · simp only [robotUpdate, defRobot]
    norm_num
  · norm_num

/-! Claim C8: health caps, floors and the death flow. -/

theorem pickupFold_health (cam : ℚ × ℚ × ℚ) (ps : List Pickup) :
    ∀ (g : GState) (acc : List Pickup),
      ((ps.foldl (pickupStep cam) (g, acc)).1.maxHealth = g.maxHealth) ∧
      (g.health ≤ g.maxHealth →
        (ps.foldl (pickupStep cam) (g, acc)).1.health ≤ g.maxHealth) ∧
      (g.health = g.maxHealth →
        (ps.foldl (pickupStep cam) (g, acc)).1.health = g.maxHealth) ∧
      ((∀ p ∈ ps, pickupNear cam p = false) →
        (ps.foldl (pickupStep cam) (g, acc)).1 = g) := by
  induction ps with
  | nil => intro g acc; simp
  | cons p ps ih =>
    intro g acc
    by_cases hn : pickupNear cam p
    · have hstep : pickupStep cam (g, acc) p =
          ({ g with health := min g.maxHealth (g.health + 20) },
           acc ++ [{ p with collected := true }]) := by
        simp [pickupStep, hn]
      have ih2 := ih { g with health := min g.maxHealth (g.health + 20) }
        (acc ++ [{ p with collected := true }])
      refine ⟨?_, ?_, ?_, ?_⟩
      · simpa [hstep] using ih2.1
      · intro _
        have := ih2.2.1 (by simp [min_le_left])
        simpa [hstep] using this
      · intro hfull
        have hmin : min g.maxHealth (g.health + 20) = g.maxHealth := by
          rw [hfull]
          exact min_eq_left (by linarith)
        have := ih2.2.2.1 (by simpa using hmin)
        simp only [List.foldl_cons, hstep]
        simpa using this
      · intro hall
        exact absurd (hall p (List.mem_cons_self _ _)) (by simp [hn])
    · have hstep : pickupStep cam (g, acc) p = (g, acc ++ [p]) := by
        simp [pickupStep, hn]
      have ih2 := ih g (acc ++ [p])
      refine ⟨by simpa [hstep] using ih2.1, ?_, ?_, ?_⟩
      · intro hle
        simpa [hstep] using ih2.2.1 hle
      · intro hfull
        simpa [hstep] using ih2.2.2.1 hfull
      · intro hall
        have := ih2.2.2.2 (fun q hq => hall q (List.mem_cons_of_mem _ hq))
        simpa [hstep] using this

theorem applyCorrectHit_health_le (g : GState) (si : ℚ) (h : g.health ≤ g.maxHealth) :
    (applyCorrectHit g si).1.health ≤ g.maxHealth := by
  simp only [applyCorrectHit]
  split
  · split <;> simp [min_le_left]
  · simpa using h

theorem robotUpdate_healthInv (r : Robot) (g : GState) (f : RFrame)
    (hinv : g.isRunning = true → 0 < g.health) :
    (robotUpdate r g f).2.1.isRunning = true → 0 < (robotUpdate r g f).2.1.health := by
  by_cases hd : r.dying = true
  · simp only [robotUpdate, hd, if_true]
    simpa using hinv
  · by_cases hc : f.inRange = true ∧
        (if 0 < r.attackCooldown then r.attackCooldown - f.dt else r.attackCooldown) ≤ 0
    · by_cases hrun : g.isRunning = false
      · simp only [robotUpdate, attackPlayer, hd, hc, hrun, if_true, if_false]
        simpa using hinv
      · by_cases hh : g.health - r.rtype.damage ≤ 0
        · simp only [robotUpdate, attackPlayer, hd, hc, hrun, hh, if_true, if_false]
          simp
        · simp only [robotUpdate, attackPlayer, hd, hc, hrun, hh, if_true, if_false]
          intro _
          simp only [not_le] at hh
          simpa using hh
    · simp only [robotUpdate, hd, hc, if_false]
      simpa using hinv

/-- C8, amended: any heal — pickup collection or the wave bonus — leaves
health at most maxHealth; an enemy damage application is an unclamped
subtraction, so health can transiently drop below 0, and whenever the
resulting health is ≤ 0 the same attack triggers the death flow setting
isRunning to false (a running game always has positive health). -/
theorem health_bounds_spec :
    (∀ (cam : ℚ × ℚ × ℚ) (g : GState) (ps : List Pickup), g.health ≤ g.maxHealth →
      (pickupSweep cam g ps).1.health ≤ g.maxHealth) ∧
    (∀ (g : GState) (si : ℚ), g.health ≤ g.maxHealth →
      (applyCorrectHit g si).1.health ≤ g.maxHealth) ∧
    (∀ (r : Robot) (g : GState) (f : RFrame), (g.isRunning = true → 0 < g.health) →
      ((robotUpdate r g f).2.1.isRunning = true → 0 < (robotUpdate r g f).2.1.health)) ∧
    (∀ (r : Robot) (g : GState) (f : RFrame), (g.isRunning = true → 0 < g.health) →
      ((attackPlayer r g f).2.1.isRunning = true → 0 < (attackPlayer r g f).2.1.health)) := by
  refine ⟨?_, applyCorrectHit_health_le, robotUpdate_healthInv, ?_⟩
  · intro cam g ps h
    exact (pickupFold_health cam ps g []).2.1 h
  · intro r g f hinv
    by_cases hrun : g.isRunning = false
    · simp only [attackPlayer, hrun, if_true]
      intro hft
      exact absurd hft (by simp)
    · by_cases hh : g.health - r.rtype.damage ≤ 0
      · simp only [attackPlayer, hrun, hh, if_true, if_false]
        simp
      · simp only [attackPlayer, hrun, hh, if_true, if_false]
        intro _
        simp only [not_le] at hh
        simpa using hh

/-- C8 witness: the heal cap applied at a concrete state with health 95
out of 100 and one nearby pickup. -/
theorem health_bounds_spec_witness :
    (pickupSweep (0, 0, 0) ⟨0, 1, 95, 100, 1, 0, true, false, Mode.math⟩
      [⟨(0, 0, 0), false⟩]).1.health ≤ 100 :=
  health_bounds_spec.1 (0, 0, 0) ⟨0, 1, 95, 100, 1, 0, true, false, Mode.math⟩
    [⟨(0, 0, 0), false⟩] (by decide)

/-- C8, counterexample: at health 5 a heavy robot (damage 25) attack
drives health to -20, strictly below 0, before the death-flow check reads
it; the death flow itself does fire (isRunning becomes false). -/
theorem health_below_zero_cex :
    (attackPlayer { defRobot with rtype := RType.heavy }
        ⟨0, 1, 5, 100, 1, 0, true, false, Mode.math⟩
        ⟨1, true, (0, 0), (0, 0), (0, 0)⟩).2.1.health = -20 ∧
    ((-20 : ℤ) < 0) ∧
    (attackPlayer { defRobot with rtype := RType.heavy }
        ⟨0, 1, 5, 100, 1, 0, true, false, Mode.math⟩
        ⟨1, true, (0, 0), (0, 0), (0, 0)⟩).2.1.isRunning = false := by
  refine ⟨?_, by decide, ?_⟩ <;>
    simp [attackPlayer, defRobot, RType.damage]

/-! Claim C10: pickup collection in the enhanced frame loop. -/

theorem pickupFold_snd (cam : ℚ × ℚ × ℚ) (ps : List Pickup) :
    ∀ (g : GState) (acc : List Pickup),
      (ps.foldl (pickupStep cam) (g, acc)).2 = acc ++ ps.map (pickupMark cam) := by
  induction ps with
  | nil => intro g acc; simp
  | cons p ps ih =>
    intro g acc
    by_cases hn : pickupNear cam p <;>
      simp [List.foldl_cons, pickupStep, pickupMark, hn, ih]

theorem mark_filter (cam : ℚ × ℚ × ℚ) (ps : List Pickup)
    (hall : ∀ p ∈ ps, p.collected = false) :
    (ps.map (pickupMark cam)).filter (fun p => !p.collected) =
      ps.filter (fun p => !(pickupNear cam p)) := by
  induction ps with
  | nil => simp
  | cons p ps ih =>
    have hp := hall p (List.mem_cons_self _ _)
    have ih2 := ih (fun q hq => hall q (List.mem_cons_of_mem _ hq))
    by_cases hn : pickupNear cam p <;>
      simp [pickupMark, hn, hp, ih2]

/-- C10: in the enhanced frame loop, every active pickup whose (post
animation) position is within the collection radius of the camera is
removed from the active set this very frame — even at full health, where
the heal assignment changes nothing — while a pickup healing from below
the cap sets health to min(maxHealth, health + 20); pickups outside the
radius survive the pass untouched, and the pass removes nothing else. -/
theorem pickup_collection_spec (cam : ℚ × ℚ × ℚ) (g : GState) (ps : List Pickup)
    (hall : ∀ p ∈ ps, p.collected = false) :
    (pickupSweep cam g ps).2 = ps.filter (fun p => !(pickupNear cam p)) ∧
    (∀ p ∈ ps, pickupNear cam p = true → p ∉ (pickupSweep cam g ps).2) ∧
    (g.health = g.maxHealth → (pickupSweep cam g ps).1.health = g.health) ∧
    ((∀ p ∈ ps, pickupNear cam p = false) →
      (pickupSweep cam g ps).1 = g ∧ (pickupSweep cam g ps).2 = ps) ∧
    (∀ p : Pickup, p.collected = false → pickupNear cam p = true →
      (pickupSweep cam g [p]).1.health = min g.maxHealth (g.health + 20) ∧
      (pickupSweep cam g [p]).2 = []) := by
  have hsnd : (pickupSweep cam g ps).2 = ps.filter (fun p => !(pickupNear cam p)) := by
    simp only [pickupSweep, pickupFold_snd cam ps g []]
    simpa using mark_filter cam ps hall
  refine ⟨hsnd, ?_, ?_, ?_, ?_⟩
  · intro p hp hnear hmem
    rw [hsnd] at hmem
    have := (List.mem_filter.mp hmem).2
    simp [hnear] at this
  · intro hfull
    have := (pickupFold_health cam ps g []).2.2.1 hfull
    simpa [pickupSweep, hfull] using this
  · intro hnone
    constructor
    · have := (pickupFold_health cam ps g []).2.2.2 hnone
      simpa [pickupSweep] using this
    · rw [hsnd]
      rw [List.filter_eq_self]
      intro p hp
      simp [hnone p hp]
  · intro p hcol hnear
    constructor
    · simp [pickupSweep, pickupStep, hnear]
    · simp [pickupSweep, pickupStep, hnear]

/-- C10 witness: a pickup at the camera position is collected: with
health 95/100 the heal caps at 100 and the pickup list empties. -/
theorem pickup_collection_spec_witness :
    (pickupSweep (0, 0, 0) ⟨0, 1, 95, 100, 1, 0, true, false, Mode.math⟩
      [⟨(0, 0, 0), false⟩]).2 = [] :=
  ((pickup_collection_spec (0, 0, 0) ⟨0, 1, 95, 100, 1, 0, true, false, Mode.math⟩
      [⟨(0, 0, 0), false⟩] (by intro p hp; simp at hp; rw [hp])).2.2.2.2
    ⟨(0, 0, 0), false⟩ rfl (by norm_num [pickupNear, distSq])).2

/-! Claim C3: zone answers at enemy creation and their immutability. -/

theorem randFloat_valid (rng : RNG) (h : validRNG rng) :
    0 ≤ (randFloat rng).1 ∧ (randFloat rng).1 < 1 ∧ validRNG (randFloat rng).2 := by
  cases rng with
  | nil => exact ⟨le_refl 0, by norm_num [randFloat], by intro r hr; cases hr⟩
  | cons r rest =>
    obtain ⟨h0, h1⟩ := h r (List.mem_cons_self _ _)
    exact ⟨h0, h1, fun q hq => h q (List.mem_cons_of_mem _ hq)⟩

theorem floorIdx_lt (r : ℚ) (n : ℕ) (h0 : 0 ≤ r) (h1 : r < 1) (hn : 0 < n) :
    floorIdx r n < n := by
  have hlt : r * n < n := by
    have := mul_lt_mul_of_pos_right h1 (by exact_mod_cast hn : (0 : ℚ) < n)
    simpa using this
  have hfl : ⌊r * (n : ℚ)⌋ < (n : ℤ) := by
    rw [Int.floor_lt]
    exact_mod_cast hlt
  have hnn : 0 ≤ ⌊r * (n : ℚ)⌋ := Int.floor_nonneg.mpr (by positivity)
  unfold floorIdx
  omega

theorem quiz_pools_distinct :
    ∀ e ∈ quizEasy ++ quizMedium ++ quizHard, triDistinct e = true := by
  decide

theorem english_pools_distinct :
    ∀ e ∈ englishEasy ++ englishMedium ++ englishHard, triDistinct e = true := by
  decide

theorem cumulativePool_subset (easy med hard : QPool) (wave : ℕ) :
    ∀ e ∈ cumulativePool easy med hard wave, e ∈ easy ++ med ++ hard := by
  intro e he
  simp only [cumulativePool, List.mem_append] at he ⊢
  rcases he with (he | he) | he
  · tauto
  · by_cases hw : 4 ≤ wave
    · rw [if_pos hw] at he
      tauto
    · rw [if_neg hw] at he
      cases he
  · by_cases hw : 8 ≤ wave
    · rw [if_pos hw] at he
      tauto
    · rw [if_neg hw] at he
      cases he

theorem poolGenerate_sound (easy med hard : QPool) (wave : ℕ) (rng : RNG)
    (hv : validRNG rng) (hne : 0 < easy.length)
    (hd : ∀ e ∈ easy ++ med ++ hard, triDistinct e = true) :
    (poolGenerate easy med hard wave rng).1.2.2.1 ≠
      (poolGenerate easy med hard wave rng).1.2.1 ∧
    (poolGenerate easy med hard wave rng).1.2.2.2 ≠
      (poolGenerate easy med hard wave rng).1.2.1 ∧
    (poolGenerate easy med hard wave rng).1.2.2.1 ≠
      (poolGenerate easy med hard wave rng).1.2.2.2 := by
  obtain ⟨h0, h1, _⟩ := randFloat_valid rng hv
  have hlen : 0 < (cumulativePool easy med hard wave).length := by
    simp only [cumulativePool, List.length_append]
    omega
  have hidx := floorIdx_lt (randFloat rng).1 (cumulativePool easy med hard wave).length
    h0 h1 hlen
  have hmem : (cumulativePool easy med hard wave).getD
      (floorIdx (randFloat rng).1 (cumulativePool easy med hard wave).length)
      ("", "", "", "") ∈ cumulativePool easy med hard wave := by
    rw [List.getD_eq_getElem _ _ hidx]
    exact List.getElem_mem _
  have htri := hd _ (cumulativePool_subset easy med hard wave _ hmem)
  simp only [triDistinct, Bool.and_eq_true, decide_eq_true_eq] at htri
  obtain ⟨⟨t1, t2⟩, t3⟩ := htri
  simp only [poolGenerate, ne_eq, Answer.str.injEq]
  exact ⟨fun hc => t1 hc.symm, fun hc => t2 hc.symm, fun hc => t3 hc⟩

theorem genDecoys_sound (ans : ℤ) :
    ∀ (fuel : ℕ) (rng : RNG) (acc ws : List ℤ) (rng2 : RNG),
      genDecoys fuel ans rng acc = some (ws, rng2) →
      acc.length ≤ 2 → (∀ w ∈ acc, w ≠ ans ∧ 0 < w) → acc.Nodup →
      ws.length = 2 ∧ (∀ w ∈ ws, w ≠ ans ∧ 0 < w) ∧ ws.Nodup := by
  intro fuel
  induction fuel with
  | zero =>
    intro rng acc ws rng2 h hlen hP hnd
    rw [genDecoys] at h
    split at h
    · next hge =>
      rw [Option.some.injEq, Prod.mk.injEq] at h
      obtain ⟨rfl, rfl⟩ := h
      exact ⟨le_antisymm hlen hge, hP, hnd⟩
    · simp at h
  | succ fuel ih =>
    intro rng acc ws rng2 h hlen hP hnd
    rw [genDecoys] at h
    split at h
    · next hge =>
      rw [Option.some.injEq, Prod.mk.injEq] at h
      obtain ⟨rfl, rfl⟩ := h
      exact ⟨le_antisymm hlen hge, hP, hnd⟩
    · next hlt =>
      have hlen2 : acc.length ≤ 1 := by omega
      dsimp only at h
      split at h
      · next hcond =>
        obtain ⟨hne, hpos, hnotmem⟩ := hcond
        refine ih _ _ _ _ h (by simp; omega) ?_ ?_
        · intro w hw
          rcases List.mem_append.mp hw with hw | hw
          · exact hP w hw
          · rw [List.mem_singleton] at hw
            subst hw
            exact ⟨hne, hpos⟩
        · rw [List.nodup_append]
          exact ⟨hnd, List.nodup_singleton _, by simpa using hnotmem⟩
      · exact ih _ _ _ _ h hlen hP hnd

theorem mathGenerate_sound (wave : ℕ) (rng : RNG) (fuel : ℕ) (q : String)
    (ans w1 w2 : Answer) (rng2 : RNG)
    (h : mathGenerate wave rng fuel = some ((q, ans, w1, w2), rng2)) :
    ∃ a n1 n2 : ℤ, ans = .num a ∧ w1 = .num n1 ∧ w2 = .num n2 ∧
      n1 ≠ n2 ∧ n1 ≠ a ∧ n2 ≠ a ∧ 0 < n1 ∧ 0 < n2 := by
  simp only [mathGenerate] at h
  split at h
  · simp at h
  · next ws rngd heq =>
    split at h
    · next m1 m2 =>
      rw [Option.some.injEq, Prod.mk.injEq] at h
      obtain ⟨h1, _⟩ := h
      rw [Prod.mk.injEq] at h1
      obtain ⟨_, h1⟩ := h1
      rw [Prod.mk.injEq] at h1
      obtain ⟨hans, h1⟩ := h1
      rw [Prod.mk.injEq] at h1
      obtain ⟨hw1, hw2⟩ := h1
      obtain ⟨hlen, hPs, hnd⟩ := genDecoys_sound _ fuel _ [] _ _ heq
        (by simp) (by simp) List.nodup_nil
      obtain ⟨hm1ne, hm1pos⟩ := hPs m1 (List.mem_cons_self _ _)
      obtain ⟨hm2ne, hm2pos⟩ := hPs m2 (by simp)
      have hnd12 : m1 ≠ m2 := by
        rw [List.nodup_cons] at hnd
        simpa using hnd.1
      exact ⟨_, m1, m2, hans.symm, hw1.symm, hw2.symm, hnd12, hm1ne, hm2ne,
        hm1pos, hm2pos⟩
    · simp at h

theorem fyShuffle3_cases {α : Type} (a b c : α) (j2 j1 : ℕ) :
    fyShuffle3 a b c j2 j1 = (a, b, c) ∨ fyShuffle3 a b c j2 j1 = (a, c, b) ∨
    fyShuffle3 a b c j2 j1 = (b, a, c) ∨ fyShuffle3 a b c j2 j1 = (b, c, a) ∨
    fyShuffle3 a b c j2 j1 = (c, a, b) ∨ fyShuffle3 a b c j2 j1 = (c, b, a) := by
  unfold fyShuffle3 swap3
  split_ifs <;> simp_all

theorem generateQuestion_sound (mode : Mode) (wave : ℕ) (rng : RNG) (fuel : ℕ)
    (q : String) (ans : Answer) (za : ZoneAnswers) (rng2 : RNG)
    (hv : validRNG rng)
    (h : generateQuestion mode wave rng fuel = some ((q, ans, za), rng2)) :
    ∃ w1 w2 : Answer, w1 ≠ w2 ∧ w1 ≠ ans ∧ w2 ≠ ans ∧
      (mode = Mode.math → w1.isPosNum = true ∧ w2.isPosNum = true) ∧
      (za = ⟨ans, w1, w2⟩ ∨ za = ⟨ans, w2, w1⟩ ∨ za = ⟨w1, ans, w2⟩ ∨
       za = ⟨w2, ans, w1⟩ ∨ za = ⟨w1, w2, ans⟩ ∨ za = ⟨w2, w1, ans⟩) := by
  cases mode with
  | math =>
    simp only [generateQuestion] at h
    split at h
    · exact absurd h (by simp)
    · rename_i q0 ans0 w10 w20 rng3 heq
      rw [Option.some.injEq, Prod.mk.injEq] at h
      obtain ⟨h1, _⟩ := h
      rw [Prod.mk.injEq] at h1
      obtain ⟨rfl, h1⟩ := h1
      rw [Prod.mk.injEq] at h1
      obtain ⟨rfl, rfl⟩ := h1
      obtain ⟨a, n1, n2, rfl, rfl, rfl, hne12, hne1a, hne2a, hpos1, hpos2⟩ :=
        mathGenerate_sound wave rng fuel q0 ans0 w10 w20 rng3 heq
      refine ⟨.num n1, .num n2, by simp [hne12], by simp [hne1a], by simp [hne2a],
        fun _ => ⟨by simp [Answer.isPosNum, hpos1], by simp [Answer.isPosNum, hpos2]⟩, ?_⟩
      rcases fyShuffle3_cases (Answer.num a) (Answer.num n1) (Answer.num n2)
          (floorIdx (randFloat rng3).1 3) (floorIdx (randFloat (randFloat rng3).2).1 2)
        with hs | hs | hs | hs | hs | hs <;>
        rw [hs] <;> simp
  | quiz =>
    simp only [generateQuestion] at h
    rw [Option.some.injEq, Prod.mk.injEq] at h
    obtain ⟨h1, _⟩ := h
    rw [Prod.mk.injEq] at h1
    obtain ⟨rfl, h1⟩ := h1
    rw [Prod.mk.injEq] at h1
    obtain ⟨rfl, rfl⟩ := h1
    obtain ⟨t1, t2, t3⟩ := poolGenerate_sound quizEasy quizMedium quizHard wave rng hv
      (by decide) quiz_pools_distinct
    refine ⟨(poolGenerate quizEasy quizMedium quizHard wave rng).1.2.2.1,
      (poolGenerate quizEasy quizMedium quizHard wave rng).1.2.2.2,
      t3, t1, t2, fun hmode => absurd hmode (by decide), ?_⟩
    rcases fyShuffle3_cases (poolGenerate quizEasy quizMedium quizHard wave rng).1.2.1
        (poolGenerate quizEasy quizMedium quizHard wave rng).1.2.2.1
        (poolGenerate quizEasy quizMedium quizHard wave rng).1.2.2.2
        (floorIdx (randFloat (poolGenerate quizEasy quizMedium quizHard wave rng).2).1 3)
        (floorIdx (randFloat
          (randFloat (poolGenerate quizEasy quizMedium quizHard wave rng).2).2).1 2)
      with hs | hs | hs | hs | hs | hs <;>
      rw [hs] <;> simp
  | english =>
    simp only [generateQuestion] at h
    rw [Option.some.injEq, Prod.mk.injEq] at h
    obtain ⟨h1, _⟩ := h
    rw [Prod.mk.injEq] at h1
    obtain ⟨rfl, h1⟩ := h1
    rw [Prod.mk.injEq] at h1
    obtain ⟨rfl, rfl⟩ := h1
    obtain ⟨t1, t2, t3⟩ := poolGenerate_sound englishEasy englishMedium englishHard
      wave rng hv (by decide) english_pools_distinct
    refine ⟨(poolGenerate englishEasy englishMedium englishHard wave rng).1.2.2.1,
      (poolGenerate englishEasy englishMedium englishHard wave rng).1.2.2.2,
      t3, t1, t2, fun hmode => absurd hmode (by decide), ?_⟩
    rcases fyShuffle3_cases
        (poolGenerate englishEasy englishMedium englishHard wave rng).1.2.1
        (poolGenerate englishEasy englishMedium englishHard wave rng).1.2.2.1
        (poolGenerate englishEasy englishMedium englishHard wave rng).1.2.2.2
        (floorIdx (randFloat
          (poolGenerate englishEasy englishMedium englishHard wave rng).2).1 3)
        (floorIdx (randFloat (randFloat
          (poolGenerate englishEasy englishMedium englishHard wave rng).2).2).1 2)
      with hs | hs | hs | hs | hs | hs <;>
      rw [hs] <;> simp

theorem robotUpdate_preserves (r : Robot) (g : GState) (f : RFrame) :
    (robotUpdate r g f).1.question = r.question ∧
    (robotUpdate r g f).1.correctAnswer = r.correctAnswer ∧
    (robotUpdate r g f).1.answers = r.answers := by
  by_cases hd : r.dying = true
  · simp only [robotUpdate, hd, if_true]
    split <;> simp
  · by_cases hc : f.inRange = true ∧
        (if 0 < r.attackCooldown then r.attackCooldown - f.dt else r.attackCooldown) ≤ 0
    · by_cases hrun : g.isRunning = false
      · simp only [robotUpdate, attackPlayer, hd, hc, hrun, if_true, if_false]
        simp
      · by_cases hh : g.health - r.rtype.damage ≤ 0 <;>
          simp only [robotUpdate, attackPlayer, hd, hc, hrun, hh, if_true, if_false] <;>
          simp
    · simp only [robotUpdate, hd, hc, if_false]
      simp

theorem attackPlayer_preserves (r : Robot) (g : GState) (f : RFrame) :
    (attackPlayer r g f).1.question = r.question ∧
    (attackPlayer r g f).1.correctAnswer = r.correctAnswer ∧
    (attackPlayer r g f).1.answers = r.answers := by
  by_cases hrun : g.isRunning = false
  · simp only [attackPlayer, hrun, if_true]
    simp
  · by_cases hh : g.health - r.rtype.damage ≤ 0 <;>
      simp only [attackPlayer, hrun, hh, if_true, if_false] <;> simp

theorem resolveShot_preserves (g : GState) (si : ℚ) (droll : Bool) :
    ∀ (entries : List (Robot × Option Zone)) (j : ℕ),
      ((resolveShot g si droll entries).robots.getD j defRobot).question =
        ((entries.map Prod.fst).getD j defRobot).question ∧
      ((resolveShot g si droll entries).robots.getD j defRobot).correctAnswer =
        ((entries.map Prod.fst).getD j defRobot).correctAnswer ∧
      ((resolveShot g si droll entries).robots.getD j defRobot).answers =
        ((entries.map Prod.fst).getD j defRobot).answers := by
  intro entries
  induction entries with
  | nil => intro j; simp [resolveShot]
  | cons e rest ih =>
    intro j
    obtain ⟨r, hit⟩ := e
    by_cases hd : r.dying = true
    · cases j with
      | zero => simp [resolveShot, hd]
      | succ j =>
        simp only [resolveShot, hd, if_true, List.map_cons, List.getD_cons_succ]
        exact ih j
    · cases hhit : hit with
      | none =>
        cases j with
        | zero => simp [resolveShot, hd]
        | succ j =>
          simp only [resolveShot, hd, Bool.false_eq_true, if_false, List.map_cons,
            List.getD_cons_succ]
          exact ih j
      | some z =>
        by_cases hc : r.answers.get z = r.correctAnswer
        · cases j with
          | zero => simp [resolveShot, hd, hc]
          | succ j => simp [resolveShot, hd, hc]
        · cases j with
          | zero => simp [resolveShot, hd, hc]
          | succ j => simp [resolveShot, hd, hc]

/-- C3, amended: for every successfully created enemy — any mode, any
wave, any valid random stream — exactly one of the three zone slots holds
correctAnswer; the other two hold decoys that are pairwise distinct and
different from correctAnswer, and in math mode the decoys are moreover
strictly positive integers (in quiz / english mode they are strings drawn
from the pools, where positivity does not apply); and the question,
correctAnswer and zone assignment are never modified afterwards: the
per-frame update, the attack and the fire-event resolution all preserve
them. -/
theorem robot_answers_spec (wave : ℕ) (mode : Mode) (pp so : ℚ × ℚ) (rng : RNG)
    (fuel : ℕ) (r : Robot) (rng2 : RNG) (hv : validRNG rng)
    (h : robotCreate wave mode pp so rng fuel = some (r, rng2)) :
    ([r.answers.head, r.answers.chest, r.answers.knee].count r.correctAnswer = 1) ∧
    (∃ w1 w2 : Answer, w1 ≠ w2 ∧ w1 ≠ r.correctAnswer ∧ w2 ≠ r.correctAnswer ∧
      (mode = Mode.math → w1.isPosNum = true ∧ w2.isPosNum = true) ∧
      (r.answers = ⟨r.correctAnswer, w1, w2⟩ ∨ r.answers = ⟨r.correctAnswer, w2, w1⟩ ∨
       r.answers = ⟨w1, r.correctAnswer, w2⟩ ∨ r.answers = ⟨w2, r.correctAnswer, w1⟩ ∨
       r.answers = ⟨w1, w2, r.correctAnswer⟩ ∨ r.answers = ⟨w2, w1, r.correctAnswer⟩)) ∧
    (∀ (g : GState) (f : RFrame),
      (robotUpdate r g f).1.question = r.question ∧
      (robotUpdate r g f).1.correctAnswer = r.correctAnswer ∧
      (robotUpdate r g f).1.answers = r.answers) ∧
    (∀ (g : GState) (f : RFrame),
      (attackPlayer r g f).1.question = r.question ∧
      (attackPlayer r g f).1.correctAnswer = r.correctAnswer ∧
      (attackPlayer r g f).1.answers = r.answers) ∧
    (∀ (g : GState) (si : ℚ) (droll : Bool)
        (entries : List (Robot × Option Zone)) (j : ℕ),
      ((resolveShot g si droll entries).robots.getD j defRobot).question =
        ((entries.map Prod.fst).getD j defRobot).question ∧
      ((resolveShot g si droll entries).robots.getD j defRobot).correctAnswer =
        ((entries.map Prod.fst).getD j defRobot).correctAnswer ∧
      ((resolveShot g si droll entries).robots.getD j defRobot).answers =
        ((entries.map Prod.fst).getD j defRobot).answers) := by
  simp only [robotCreate] at h
  split at h
  · exact absurd h (by simp)
  · rename_i q0 ans0 za0 rng3 heq
    rw [Option.some.injEq, Prod.mk.injEq] at h
    obtain ⟨hr, _⟩ := h
    have hva : validRNG (randFloat rng).2 := (randFloat_valid rng hv).2.2
    obtain ⟨w1, w2, hw12, hw1a, hw2a, hpos, harr⟩ :=
      generateQuestion_sound mode wave (randFloat rng).2 fuel q0 ans0 za0 rng3 hva heq
    have hans : r.correctAnswer = ans0 := by rw [← hr]
    have hza : r.answers = za0 := by rw [← hr]
    have hw1a2 : w1 ≠ r.correctAnswer := by rw [hans]; exact hw1a
    have hw2a2 : w2 ≠ r.correctAnswer := by rw [hans]; exact hw2a
    have hcount : [r.answers.head, r.answers.chest, r.answers.knee].count
        r.correctAnswer = 1 := by
      have hx1 : r.correctAnswer ≠ w1 := fun hxx => hw1a2 hxx.symm
      have hx2 : r.correctAnswer ≠ w2 := fun hxx => hw2a2 hxx.symm
      rw [hza, hans]
      rcases harr with ha | ha | ha | ha | ha | ha <;>
        rw [ha] <;>
        simp [List.count_cons, hx1, hx2, hans.symm ▸ hx1, hans.symm ▸ hx2]
    refine ⟨hcount, ⟨w1, w2, hw12, hw1a2, hw2a2, hpos, ?_⟩,
      fun g f => robotUpdate_preserves r g f,
      fun g f => attackPlayer_preserves r g f,
      fun g si droll entries j => resolveShot_preserves g si droll entries j⟩
    rw [hza, hans]
    exact harr

/-- C3 witness: the zone-answer facts applied to the concrete quiz-mode
enemy built from the all-zeros random stream at wave 1 (it binds the
Paris / London / Berlin triple): exactly one zone holds correctAnswer. -/
theorem robot_answers_spec_witness :
    [((robotCreate 1 Mode.quiz (0, 0) (0, 0) [0, 0, 0, 0] 0).getD
        (defRobot, [])).1.answers.head,
     ((robotCreate 1 Mode.quiz (0, 0) (0, 0) [0, 0, 0, 0] 0).getD
        (defRobot, [])).1.answers.chest,
     ((robotCreate 1 Mode.quiz (0, 0) (0, 0) [0, 0, 0, 0] 0).getD
        (defRobot, [])).1.answers.knee].count
      ((robotCreate 1 Mode.quiz (0, 0) (0, 0) [0, 0, 0, 0] 0).getD
        (defRobot, [])).1.correctAnswer = 1 :=
  (robot_answers_spec 1 Mode.quiz (0, 0) (0, 0) [0, 0, 0, 0] 0
    ((robotCreate 1 Mode.quiz (0, 0) (0, 0) [0, 0, 0, 0] 0).getD (defRobot, [])).1
    ((robotCreate 1 Mode.quiz (0, 0) (0, 0) [0, 0, 0, 0] 0).getD (defRobot, [])).2
    (by intro q hq; simp at hq; rw [hq]; norm_num)
    rfl).1

/-- C3, counterexample to the positivity part of the claim as stated: the
same concrete quiz-mode enemy binds the decoy "London" (a string, not a
positive number) to the head zone, and its correctAnswer is "Paris" —
so in quiz mode the two decoys are not positive values. -/
theorem quiz_decoys_not_positive_cex :
    ((robotCreate 1 Mode.quiz (0, 0) (0, 0) [0, 0, 0, 0] 0).getD
        (defRobot, [])).1.answers.head = Answer.str "London" ∧
    Answer.isPosNum (Answer.str "London") = false ∧
    ((robotCreate 1 Mode.quiz (0, 0) (0, 0) [0, 0, 0, 0] 0).getD
        (defRobot, [])).1.correctAnswer = Answer.str "Paris" ∧
    Answer.str "London" ≠ Answer.str "Paris" := by
  refine ⟨?_, rfl, ?_, by decide⟩ <;>
    simp [robotCreate, generateQuestion, poolGenerate, randFloat, floorIdx,
      cumulativePool, typePoolForWave, fyShuffle3, swap3, quizEasy, quizMedium,
      quizHard]

end MathBlaster
